import Mathlib

/-
Verification of the configuration-resolution core of `cookiecutter/prompt.py`
(nested-schema prompting).

The Python source is shallowly embedded: Python values become the inductive
type `Val`; the interactive prompt widgets (rich's `Prompt`, `Confirm`,
`JsonPrompt`) are modelled by an oracle `Prompter` whose functions return the
value the operator eventually settles on (rich's retry-until-valid loops are
folded into the oracle); the Jinja2 template engine (`create_env_with_context`
/ `Environment.from_string().render`, an external collaborator that lives
outside `prompt.py`) is an abstract `JinjaEnv` that either renders a template
string against named bindings or fails like `jinja2.UndefinedError`.
Python exceptions become the `Except PErr` monad.  In-place mutation of the
caller's `context` (the `.pop('__prompts__', ...)` calls) is modelled by
returning the updated context alongside the result.
-/

namespace CCPrompt

/-- A Python value as used by the schema resolver: `None`, `bool`, `int`,
`str`, `list`, and (insertion-ordered) `dict`.  Dict keys are arbitrary
values, as in Python. -/
inductive Val where
  | vnone : Val
  | vbool : Bool → Val
  | vint : Int → Val
  | vstr : String → Val
  | vlist : List Val → Val
  | vdict : List (Val × Val) → Val

mutual

/-- Python `==` on the shapes the resolver compares.  Booleans compare equal
to the corresponding ints, as in Python (`True == 1`).  Dict comparison is
modelled order-sensitively (the resolver only ever compares scalars). -/
def Val.beq : Val → Val → Bool
  | .vnone, .vnone => true
  | .vbool a, .vbool b => a == b
  | .vbool a, .vint n => (if a then (1 : Int) else 0) == n
  | .vint n, .vbool b => n == (if b then (1 : Int) else 0)
  | .vint a, .vint b => a == b
  | .vstr a, .vstr b => a == b
  | .vlist a, .vlist b => Val.beqList a b
  | .vdict a, .vdict b => Val.beqPairs a b
  | _, _ => false

def Val.beqList : List Val → List Val → Bool
  | [], [] => true
  | a :: as_, b :: bs => Val.beq a b && Val.beqList as_ bs
  | _, _ => false

def Val.beqPairs : List (Val × Val) → List (Val × Val) → Bool
  | [], [] => true
  | (ka, va) :: as_, (kb, vb) :: bs => Val.beq ka kb && Val.beq va vb && Val.beqPairs as_ bs
  | _, _ => false

end

instance : BEq Val := ⟨Val.beq⟩

/-- Python truthiness of a value. -/
def Val.truthy : Val → Bool
  | .vnone => false
  | .vbool b => b
  | .vint n => n != 0
  | .vstr s => s != ""
  | .vlist xs => !xs.isEmpty
  | .vdict kvs => !kvs.isEmpty

mutual

/-- Python `repr` of a value (used by `str` on containers). -/
def pyRepr : Val → String
  | .vnone => "None"
  | .vbool true => "True"
  | .vbool false => "False"
  | .vint n => toString n
  | .vstr s => "\x27" ++ s ++ "\x27"
  | .vlist xs => "[" ++ pyReprList xs ++ "]"
  | .vdict kvs => "\x7b" ++ pyReprPairs kvs ++ "\x7d"

def pyReprList : List Val → String
  | [] => ""
  | [x] => pyRepr x
  | x :: rest => pyRepr x ++ ", " ++ pyReprList rest

def pyReprPairs : List (Val × Val) → String
  | [] => ""
  | [(k, v)] => pyRepr k ++ ": " ++ pyRepr v
  | (k, v) :: rest => pyRepr k ++ ": " ++ pyRepr v ++ ", " ++ pyReprPairs rest

end

/-- Python `str` of a value. -/
def pyStr : Val → String
  | .vstr s => s
  | v => pyRepr v

/-- The growing `cookiecutter_dict`: an insertion-ordered mapping from
variable name to resolved value (Python `OrderedDict`). -/
abbrev Ctx := List (String × Val)

/-- Lookup in a `Val`-keyed dict, by Python equality. -/
def dictGet (kvs : List (Val × Val)) (k : Val) : Option Val :=
  (kvs.find? fun kv => Val.beq kv.1 k).map (·.2)

/-- Key membership in a `Val`-keyed dict (Python `k in d`). -/
def hasKeyV (kvs : List (Val × Val)) (k : Val) : Bool :=
  kvs.any fun kv => Val.beq kv.1 k

/-- Lookup in the string-keyed context. -/
def ctxGet (cd : Ctx) (k : String) : Option Val :=
  (cd.find? fun kv => kv.1 == k).map (·.2)

/-- Key membership in the string-keyed context. -/
def ctxHas (cd : Ctx) (k : String) : Bool :=
  cd.any fun kv => kv.1 == k

/-- Python dict assignment `d[k] = v`: overwrite in place if the key exists,
append otherwise. -/
def ctxSet (cd : Ctx) (k : String) (v : Val) : Ctx :=
  if cd.any (fun kv => kv.1 == k) then
    cd.map fun kv => if kv.1 == k then (k, v) else kv
  else cd ++ [(k, v)]

/-- Python dict assignment for `Val`-keyed dicts. -/
def dictSetV (kvs : List (Val × Val)) (k v : Val) : List (Val × Val) :=
  if kvs.any (fun kv => Val.beq kv.1 k) then
    kvs.map fun kv => if Val.beq kv.1 k then (kv.1, v) else kv
  else kvs ++ [(k, v)]

/-- The `context` argument of `prompt_for_config`: its `'cookiecutter'` entry
(the schema) plus whatever other top-level entries the caller put in it. -/
structure Context where
  cookiecutter : List (String × Val)
  extra : List (String × Val)

/-- Python exceptions raised by the resolver.  `undefined` is
`jinja2.exceptions.UndefinedError`; `undefinedVarInTemplate` is cookiecutter's
`UndefinedVariableInTemplate` (message, wrapped error, full context). -/
inductive PErr where
  | undefined : String → PErr
  | undefinedVarInTemplate : String → String → Context → PErr
  | typeError : String → PErr
  | valueError : String → PErr
  | keyError : String → PErr
  | indexError : String → PErr

/-- The external Jinja2 template engine (`create_env_with_context` result):
renders a template string against a list of named bindings, or fails like
`jinja2.UndefinedError` with a message. -/
structure JinjaEnv where
  render : String → List (String × Val) → Except String String

/-- The interactive prompt widgets as an oracle.  Each function is given the
final prompt text and the default, and returns the value the operator settles
on; rich's internal retry-until-valid loops are folded into the oracle
(`choose` selects one of the offered choice keys by position). -/
structure Prompter where
  ask : String → Val → Val
  askYesNo : String → Val → Bool
  choose : String → List String → Nat
  askJson : String → Val → List (Val × Val)

/-- The context as passed to Jinja2: the single named binding `cookiecutter`
exposing the accumulated `cookiecutter_dict`. -/
def ctxVal (cd : Ctx) : Val :=
  .vdict (cd.map fun kv => (.vstr kv.1, kv.2))

mutual

/-- `render_variable(env, raw, cookiecutter_dict)`: booleans and `None` pass
through; dicts recurse into keys and values; lists recurse into elements; any
other value is coerced to a string and rendered as a template with the single
binding `cookiecutter=cookiecutter_dict`. -/
def render_variable (env : JinjaEnv) (raw : Val) (cookiecutter_dict : Ctx) : Except PErr Val :=
  match raw with
  | .vnone => .ok .vnone
  | .vbool b => .ok (.vbool b)
  | .vdict kvs => (render_pairs env kvs cookiecutter_dict).map Val.vdict
  | .vlist xs => (render_list env xs cookiecutter_dict).map Val.vlist
  | .vint n =>
      match env.render (toString n) [("cookiecutter", ctxVal cookiecutter_dict)] with
      | .ok s => .ok (.vstr s)
      | .error e => .error (.undefined e)
  | .vstr s =>
      match env.render s [("cookiecutter", ctxVal cookiecutter_dict)] with
      | .ok t => .ok (.vstr t)
      | .error e => .error (.undefined e)

def render_list (env : JinjaEnv) (xs : List Val) (cookiecutter_dict : Ctx) :
    Except PErr (List Val) :=
  match xs with
  | [] => .ok []
  | x :: rest =>
      match render_variable env x cookiecutter_dict with
      | .error e => .error e
      | .ok v =>
          match render_list env rest cookiecutter_dict with
          | .error e => .error e
          | .ok vs => .ok (v :: vs)

def render_pairs (env : JinjaEnv) (kvs : List (Val × Val)) (cookiecutter_dict : Ctx) :
    Except PErr (List (Val × Val)) :=
  match kvs with
  | [] => .ok []
  | (k, v) :: rest =>
      match render_variable env k cookiecutter_dict with
      | .error e => .error e
      | .ok k2 =>
          match render_variable env v cookiecutter_dict with
          | .error e => .error e
          | .ok v2 =>
              match render_pairs env rest cookiecutter_dict with
              | .error e => .error e
              | .ok rest2 => .ok ((k2, v2) :: rest2)

end

/-- Python `x in container` for the container shapes that occur here: dict
key membership, list membership, substring test for strings; `in` on any
other shape raises `TypeError`. -/
def pyIn (x container : Val) : Except PErr Bool :=
  match container with
  | .vdict kvs => .ok (hasKeyV kvs x)
  | .vlist xs => .ok (xs.any fun y => Val.beq y x)
  | .vstr s =>
      match x with
      | .vstr t => .ok (t = "" || (s.splitOn t).length != 1)
      | _ => .error (.typeError "in <string> requires string as left operand")
  | _ => .error (.typeError "argument of type is not iterable")

/-- Python subscript `d[k]`: dict lookup (`KeyError` when absent); any
non-dict container raises `TypeError` (string subscripts are never applied to
lists here). -/
def pySubscript (d k : Val) : Except PErr Val :=
  match d with
  | .vdict kvs =>
      match dictGet kvs k with
      | some v => .ok v
      | none => .error (.keyError (pyRepr k))
  | _ => .error (.typeError "object is not subscriptable")

/-- Python `d.get(k, dflt)`: `AttributeError` (modelled as `typeError`) when
`d` is not a dict. -/
def pyDictGetD (d k dflt : Val) : Except PErr Val :=
  match d with
  | .vdict kvs => .ok ((dictGet kvs k).getD dflt)
  | _ => .error (.typeError "object has no attribute get")

/-- `cookiecutter_dict.get(cond_key)` where the context is string-keyed and
`cond_key` is an arbitrary value: a string key looks up the entry, other
hashable keys match nothing (`None`), unhashable keys raise `TypeError`. -/
def lookupByVal (cd : Ctx) (k : Val) : Except PErr Val :=
  match k with
  | .vstr s => .ok ((ctxGet cd s).getD .vnone)
  | .vlist _ => .error (.typeError "unhashable type")
  | .vdict _ => .error (.typeError "unhashable type")
  | _ => .ok .vnone

/-- The shared question-construction idiom of `read_user_variable`,
`read_user_yes_no` and `read_user_dict`:
`prompts[var_name] if prompts and var_name in prompts and prompts[var_name]
else var_name` (the prompt text is coerced to a string at display time). -/
def questionFor (prompts : Val) (var_name : String) : Except PErr String := do
  if prompts.truthy then
    let mem ← pyIn (.vstr var_name) prompts
    if mem then
      let q ← pySubscript prompts (.vstr var_name)
      if q.truthy then pure (pyStr q) else pure var_name
    else pure var_name
  else pure var_name

/-- `read_user_variable(var_name, default_value, prompts, prefix)`.
`Prompt.ask` re-asks while the answer is `None`; the oracle supplies the
settled answer directly. -/
def read_user_variable (p : Prompter) (var_name : String) (default_value : Val)
    (prompts : Val) (pfx : String) : Except PErr Val := do
  let question ← questionFor prompts var_name
  pure (p.ask (pfx ++ question) default_value)

/-- `read_user_yes_no(var_name, default_value, prompts, prefix)`:
`YesNoPrompt.ask` returns a boolean (re-asking on any token outside the
yes/no vocabularies; the oracle supplies the settled boolean). -/
def read_user_yes_no (p : Prompter) (var_name : String) (default_value : Val)
    (prompts : Val) (pfx : String) : Except PErr Val := do
  let question ← questionFor prompts var_name
  pure (.vbool (p.askYesNo (pfx ++ question) default_value))

/-- `DEFAULT_DISPLAY = 'default'`. -/
def DEFAULT_DISPLAY : String := "default"

/-- `read_user_dict(var_name, default_value, prompts, prefix)`: raises
`TypeError` unless the default is a dict; `JsonPrompt.ask` re-asks until the
operator supplies a JSON object (the oracle supplies the settled object, and
an empty reply yields the default, which the oracle can also return). -/
def read_user_dict (p : Prompter) (var_name : String) (default_value : Val)
    (prompts : Val) (pfx : String) : Except PErr Val := do
  match default_value with
  | .vdict _ =>
      let question ← questionFor prompts var_name
      pure (.vdict (p.askJson
        (pfx ++ question ++ " [cyan bold](" ++ DEFAULT_DISPLAY ++ ")[/]") default_value))
  | _ => .error (.typeError "default value is not a dict")

/-- One display line of the choice menu: `"    [bold magenta]{i}[/] - [bold]{label}[/]"`. -/
def choiceLine (i : String) (label : String) : String :=
  s!"    [bold magenta]{i}[/] - [bold]{label}[/]"

/-- The overridden choice lines of `read_user_choice` when
`prompts[var_name]` is a non-string mapping: each option `p` is labelled by
`prompts[var_name][p]` when present, else by `p` itself. -/
def choiceLinesFor (sub : Val) (choice_map : List (String × Val)) :
    Except PErr (List String) :=
  choice_map.mapM fun iv => do
    let mem ← pyIn iv.2 sub
    if mem then
      let label ← pySubscript sub iv.2
      pure (choiceLine iv.1 (pyStr label))
    else
      pure (choiceLine iv.1 (pyStr iv.2))

/-- `read_user_choice(var_name, options, prompts, prefix)`: raises
`ValueError` on an empty option list; numbers the options `1..N`, builds the
menu text (honouring `prompts[var_name]` / its `__prompt__` entry), and
returns the option whose index the operator picks (rich re-asks until the
reply is one of the offered indices; the oracle picks an offered index by
position, the first index being the default). -/
def read_user_choice (p : Prompter) (var_name : String) (options : List Val)
    (prompts : Val) (pfx : String) : Except PErr Val := do
  if options.isEmpty then .error (.valueError "")
  else
    let choice_map : List (String × Val) :=
      (options.enumFrom 1).map fun iv => (toString iv.1, iv.2)
    let baseLines := choice_map.map fun iv => choiceLine iv.1 (pyStr iv.2)
    let mem ← if prompts.truthy then pyIn (.vstr var_name) prompts else pure false
    let qAndLines ←
      if mem then do
        let sub ← pySubscript prompts (.vstr var_name)
        match sub with
        | .vstr s => pure (Val.vstr s, baseLines)
        | _ => do
            let hasP ← pyIn (.vstr "__prompt__") sub
            let q ← if hasP then pySubscript sub (.vstr "__prompt__")
                    else pure (Val.vstr s!"Select {var_name}")
            let lines ← choiceLinesFor sub choice_map
            pure (q, lines)
      else pure (Val.vstr s!"Select {var_name}", baseLines)
    let question := qAndLines.1
    let fullPrompt := String.intercalate "\n"
      [pfx ++ pyStr question, String.intercalate "\n" qAndLines.2, "    Choose from"]
    let keys := choice_map.map (·.1)
    let user_choice := keys.getD (p.choose fullPrompt keys % keys.length) "1"
    pure (((choice_map.find? fun kv => kv.1 == user_choice).map (·.2)).getD .vnone)

/-- `_prompts_from_options(options)`: the label map for a template-options
mapping — `{"__prompt__": "Select a template"}` plus, per option,
`title (description)` with both defaulting to the option key (`title` is
`str`-coerced, and the bare title is used when it equals the description). -/
def prompts_from_options (options : Val) : Except PErr Val := do
  match options with
  | .vdict kvs =>
      let entries ← kvs.mapM fun kv => do
        match kv.2 with
        | .vdict ov =>
            let title := pyStr ((dictGet ov (.vstr "title")).getD kv.1)
            let description := (dictGet ov (.vstr "description")).getD kv.1
            let label :=
              if Val.beq (.vstr title) description then title
              else title ++ " (" ++ pyStr description ++ ")"
            pure ((kv.1, Val.vstr label) : Val × Val)
        | _ => .error (.typeError "option value has no attribute get")
      pure (Val.vdict ((Val.vstr "__prompt__", Val.vstr "Select a template") :: entries))
  | _ => .error (.typeError "options has no attribute items")

/-- `prompt_choice_for_template(key, options, no_input)`: lists the option
keys, builds the friendly labels, and returns the first option key under
no-input, otherwise the key the operator chooses. -/
def prompt_choice_for_template (p : Prompter) (key : String) (options : Val)
    (no_input : Bool) : Except PErr Val := do
  let opts ←
    match options with
    | .vdict kvs => pure (kvs.map (·.1))
    | _ => .error (.typeError "options has no attribute keys")
  let inner ← prompts_from_options options
  let prompts := Val.vdict [(.vstr "templates", inner)]
  if no_input then
    match opts with
    | [] => .error (.indexError "list index out of range")
    | k :: _ => pure k
  else read_user_choice p key opts prompts ""

/-- Python iteration `for x in options`: list elements, dict keys, string
characters; anything else raises `TypeError`. -/
def pyIterate (options : Val) : Except PErr (List Val) :=
  match options with
  | .vlist xs => .ok xs
  | .vdict kvs => .ok (kvs.map (·.1))
  | .vstr s => .ok (s.toList.map fun c => .vstr (String.singleton c))
  | _ => .error (.typeError "object is not iterable")

/-- `prompt_choice_for_config(cookiecutter_dict, env, key, options, no_input,
prompts, prefix)`: renders every option, returns the first rendered option
under no-input, otherwise asks the operator to choose. -/
def prompt_choice_for_config (p : Prompter) (cookiecutter_dict : Ctx) (env : JinjaEnv)
    (key : String) (options : Val) (no_input : Bool) (prompts : Val) (pfx : String) :
    Except PErr Val := do
  let opts ← pyIterate options
  let rendered_options ← render_list env opts cookiecutter_dict
  if no_input then
    match rendered_options with
    | [] => .error (.indexError "list index out of range")
    | x :: _ => pure x
  else read_user_choice p key rendered_options prompts pfx

/-- Is this value a nested config, i.e. a dict carrying `'__prompts__'`? -/
def isNestedConfigVal (v : Val) : Bool :=
  match v with
  | .vdict kvs => hasKeyV kvs (.vstr "__prompts__")
  | _ => false

mutual

/-- `_prompt_for_nested_config(parent_key, nested_config, no_input, prefix)`:
resolves a nested sub-schema field by field in declaration order, skipping the
reserved `'__prompts__'` / `'__conditional__'` markers; recurses into fields
that are themselves nested configs with increased indentation; otherwise
copies the default under no-input or asks the operator with the custom (or
synthesized) prompt text.  `parent_key` is accepted but unused, as in the
source. -/
def prompt_for_nested_config (p : Prompter) (_parent_key : Val) (nested_config : Val)
    (no_input : Bool) (pfx : String) : Except PErr (List (Val × Val)) :=
  match nested_config with
  | .vdict kvs =>
      let prompts_nested := (dictGet kvs (.vstr "__prompts__")).getD (.vdict [])
      nestedFields p no_input prompts_nested (pfx ++ "    ") kvs
  | _ => .error (.typeError "nested config has no attribute get")

/-- The field loop of `_prompt_for_nested_config` over the remaining
`nested_config.items()`. -/
def nestedFields (p : Prompter) (no_input : Bool) (prompts_nested : Val)
    (npfx : String) : List (Val × Val) → Except PErr (List (Val × Val))
  | [] => .ok []
  | (key, value) :: rest =>
      if Val.beq key (.vstr "__prompts__") || Val.beq key (.vstr "__conditional__") then
        nestedFields p no_input prompts_nested npfx rest
      else
        let ks := pyStr key
        let vs := pyStr value
        let default_prompt := s!"{npfx}[bold magenta]{ks}[/] (default: {vs}): "
        match pyDictGetD prompts_nested key (.vstr default_prompt) with
        | .error e => .error e
        | .ok prompt_text =>
            let res :=
              if isNestedConfigVal value then
                (prompt_for_nested_config p key value no_input npfx).map Val.vdict
              else if no_input then .ok value
              else .ok (p.ask (pyStr prompt_text) value)
            match res with
            | .error e => .error e
            | .ok v =>
                match nestedFields p no_input prompts_nested npfx rest with
                | .error e => .error e
                | .ok rest2 => .ok ((key, v) :: rest2)

end

/-- `{"choice": choice_val, **nested_val}`: a dict literal starting from the
`"choice"` entry, merged with the nested values (later entries overwrite). -/
def mergeChoice (choice_val : Val) (nested_val : List (Val × Val)) : Val :=
  .vdict (nested_val.foldl (fun acc kv => dictSetV acc kv.1 kv.2)
    [(.vstr "choice", choice_val)])

/-- Is `raw` the choice-with-nested-config structure (a dict with both a
`"choices"` key and a `"_"` key)? -/
def isChoiceWithNested (raw : Val) : Bool :=
  match raw with
  | .vdict kvs => hasKeyV kvs (.vstr "choices") && hasKeyV kvs (.vstr "_")
  | _ => false

/-- Is the value a Python dict? -/
def isDict : Val → Bool
  | .vdict _ => true
  | _ => false

/-- Is the value a Python list? -/
def isList : Val → Bool
  | .vlist _ => true
  | _ => false

/-- Is the value a Python bool? -/
def isBool : Val → Bool
  | .vbool _ => true
  | _ => false

/-- Python `s.startswith(p)`, as a prefix test on the character lists (kept
kernel-reducible, unlike `String.startsWith`). -/
def strStartsWith (s p : String) : Bool :=
  p.data.isPrefixOf s.data

/-- The message of `UndefinedVariableInTemplate`:
`f"Unable to render variable '{key}'"`. -/
def msgFor (key : String) : String :=
  s!"Unable to render variable \x27{key}\x27"

/-- The `try/except UndefinedError` blocks of `prompt_for_config`: a
`jinja2.UndefinedError` escaping the wrapped computation is re-raised as
`UndefinedVariableInTemplate` naming the offending key and carrying the whole
context; every other outcome passes through. -/
def wrapUndefined (key : String) (errCtx : Context) (r : Except PErr α) : Except PErr α :=
  match r with
  | .error (.undefined e) => .error (.undefinedVarInTemplate (msgFor key) e errCtx)
  | r => r

/-- The progress prefix `f"  [dim][{count}/{size}][/] "`. -/
def progressPfx (count size : Nat) : String :=
  s!"  [dim][{count}/{size}][/] "

/-- One iteration of the first pass of `prompt_for_config` over `(key, raw)`,
acting on the state `(cookiecutter_dict, count)`:
single-underscore keys are copied verbatim; double-underscore keys are
rendered and stored (outside the `try` block); the choice-with-nested
structure is resolved immediately (choice first, then — only interactively —
the nested config, gated by its `__conditional__`); lists, booleans and
scalars are resolved inside the `try` block with the progress counter
incremented; other dicts are deferred to the second pass untouched. -/
def pass1_step (p : Prompter) (env : JinjaEnv) (prompts : Val) (errCtx : Context)
    (size : Nat) (no_input : Bool) (st : Ctx × Nat) (key : String) (raw : Val) :
    Except PErr (Ctx × Nat) :=
  let cd := st.1
  let count := st.2
  if strStartsWith key "_" && !strStartsWith key "__" then .ok (ctxSet cd key raw, count)
  else if strStartsWith key "__" then
    match render_variable env raw cd with
    | .ok v => .ok (ctxSet cd key v, count)
    | .error e => .error e
  else if isChoiceWithNested raw then do
    let count := count + 1
    let pfxLocal := progressPfx count size
    let choices ← pySubscript raw (.vstr "choices")
    let choice_val ← prompt_choice_for_config p cd env key choices no_input prompts pfxLocal
    let nested_cfg ← pySubscript raw (.vstr "_")
    let condition ← pyDictGetD nested_cfg (.vstr "__conditional__") .vnone
    if !no_input && condition.truthy then do
      let expected_value ← pyDictGetD condition (.vstr "value") .vnone
      if choice_val == expected_value then do
        let nested_val ← prompt_for_nested_config p (.vstr key) nested_cfg no_input "    "
        pure (ctxSet cd key (mergeChoice choice_val nested_val), count)
      else pure (ctxSet cd key (.vdict [(.vstr "choice", choice_val)]), count)
    else if !no_input && !condition.truthy then do
      let nested_val ← prompt_for_nested_config p (.vstr key) nested_cfg no_input "    "
      pure (ctxSet cd key (mergeChoice choice_val nested_val), count)
    else pure (ctxSet cd key (.vdict [(.vstr "choice", choice_val)]), count)
  else if !isDict raw then
    let count := count + 1
    let pfxLocal := progressPfx count size
    wrapUndefined key errCtx (do
      if isList raw then do
        let val ← prompt_choice_for_config p cd env key raw no_input prompts pfxLocal
        pure (ctxSet cd key (.vdict [(.vstr "choice", val)]), count)
      else if isBool raw then
        if no_input then do
          let v ← render_variable env raw cd
          pure (ctxSet cd key v, count)
        else do
          let v ← read_user_yes_no p key raw prompts pfxLocal
          pure (ctxSet cd key v, count)
      else do
        let val ← render_variable env raw cd
        let val ← if no_input then pure val else read_user_variable p key val prompts pfxLocal
        pure (ctxSet cd key val, count))
  else .ok (cd, count)

/-- The first pass: fold `pass1_step` over the schema in declaration order. -/
def pass1 (p : Prompter) (env : JinjaEnv) (prompts : Val) (errCtx : Context)
    (size : Nat) (no_input : Bool) : List (String × Val) → Ctx × Nat →
    Except PErr (Ctx × Nat)
  | [], st => .ok st
  | (key, raw) :: rest, st => do
      let st2 ← pass1_step p env prompts errCtx size no_input st key raw
      pass1 p env prompts errCtx size no_input rest st2

/-- One iteration of the second pass of `prompt_for_config` over `(key,
raw)`: keys already resolved (and private single-underscore keys) are
skipped; a dict carrying `'__prompts__'` is resolved through the nested-config
resolver, gated by its `'__conditional__'` against an already-resolved key (on
mismatch the raw fields are stored with the two markers stripped, unrendered);
any other dict is rendered (progress counter incremented) and offered as a
JSON-object prompt unless no-input. -/
def pass2_step (p : Prompter) (env : JinjaEnv) (prompts : Val) (errCtx : Context)
    (size : Nat) (no_input : Bool) (st : Ctx × Nat) (key : String) (raw : Val) :
    Except PErr (Ctx × Nat) :=
  let cd := st.1
  let count := st.2
  if ctxHas cd key then .ok st
  else if strStartsWith key "_" && !strStartsWith key "__" then .ok st
  else
    wrapUndefined key errCtx (
      match raw with
      | .vdict kvs =>
          if hasKeyV kvs (.vstr "__prompts__") then
            if hasKeyV kvs (.vstr "__conditional__") then do
              let condition := (dictGet kvs (.vstr "__conditional__")).getD .vnone
              let cond_key ← pyDictGetD condition (.vstr "option") .vnone
              let expected_value ← pyDictGetD condition (.vstr "value") .vnone
              let current ← lookupByVal cd cond_key
              if current == expected_value then do
                let val ← prompt_for_nested_config p (.vstr key) raw no_input ""
                pure (ctxSet cd key (.vdict val), count)
              else
                pure (ctxSet cd key (.vdict (kvs.filter fun kv =>
                  !(Val.beq kv.1 (.vstr "__prompts__") || Val.beq kv.1 (.vstr "__conditional__")))),
                  count)
            else do
              let val ← prompt_for_nested_config p (.vstr key) raw no_input ""
              pure (ctxSet cd key (.vdict val), count)
          else do
            let count := count + 1
            let pfxLocal := progressPfx count size
            let val ← render_variable env raw cd
            let val ←
              if !no_input && !strStartsWith key "__" then
                read_user_dict p key val prompts pfxLocal
              else pure val
            pure (ctxSet cd key val, count)
      | _ => .ok st)

/-- The second pass: fold `pass2_step` over the schema in declaration order. -/
def pass2 (p : Prompter) (env : JinjaEnv) (prompts : Val) (errCtx : Context)
    (size : Nat) (no_input : Bool) : List (String × Val) → Ctx × Nat →
    Except PErr (Ctx × Nat)
  | [], st => .ok st
  | (key, raw) :: rest, st => do
      let st2 ← pass2_step p env prompts errCtx size no_input st key raw
      pass2 p env prompts errCtx size no_input rest st2

/-- `context['cookiecutter'].pop('__prompts__', {})`: returns the popped
value (default `{}`) together with the mutated context. -/
def popPrompts (c : Context) : Val × Context :=
  match ctxGet c.cookiecutter "__prompts__" with
  | some v =>
      (v, { c with cookiecutter := c.cookiecutter.eraseP fun kv => kv.1 == "__prompts__" })
  | none => (.vdict [], c)

/-- `visible_prompts = [k for k, _ in all_prompts if not k.startswith("_")]`. -/
def visiblePrompts (schema : List (String × Val)) : List String :=
  (schema.filter fun kv => !strStartsWith kv.1 "_").map (·.1)

/-- `prompt_for_config(context, no_input)`: builds the Jinja environment from
the context, pops `'__prompts__'` out of the schema, then runs the two passes
starting from an empty `cookiecutter_dict` and `count = 0`.  Returns the
resolved mapping, the final progress count, and the mutated context. -/
def prompt_for_config_core (p : Prompter) (envOf : Context → JinjaEnv)
    (context : Context) (no_input : Bool) : Except PErr (Ctx × Nat × Context) := do
  let env := envOf context
  let pc := popPrompts context
  let prompts := pc.1
  let context := pc.2
  let all_prompts := context.cookiecutter
  let size := (visiblePrompts all_prompts).length
  let st1 ← pass1 p env prompts context size no_input all_prompts ([], 0)
  let st2 ← pass2 p env prompts context size no_input all_prompts st1
  pure (st2.1, st2.2, context)

/-- `prompt_for_config`, returning just the resolved `cookiecutter_dict`. -/
def prompt_for_config (p : Prompter) (envOf : Context → JinjaEnv)
    (context : Context) (no_input : Bool) : Except PErr Ctx :=
  (prompt_for_config_core p envOf context no_input).map (·.1)

/-- `re.search(r'\((.+)\)', val).group(1)`: the text between the first `(`
that is followed (at distance at least two) by the last `)` of the string and
that last `)`; `None` when the pattern does not match. -/
def extractParen (s : String) : Option String :=
  let cs := s.toList
  let opens := (cs.enum.filter fun pr => pr.2 = Char.ofNat 40).map (·.1)
  let closes := (cs.enum.filter fun pr => pr.2 = Char.ofNat 41).map (·.1)
  match closes.getLast? with
  | none => none
  | some j =>
      match (opens.filter fun i => i + 1 < j).head? with
      | none => none
      | some i => some (String.mk ((cs.drop (i + 1)).take (j - i - 1)))

/-- POSIX `Path.is_absolute()`. -/
def isAbsolutePath (s : String) : Bool :=
  strStartsWith s "/"

/-- `(Path(repo_dir).resolve() / template).resolve()` rendered back to a
string; filesystem resolution is modelled as the textual join. -/
def joinPath (repo_dir template : String) : String :=
  repo_dir ++ "/" ++ template

/-- `choose_nested_template(context, repo_dir, no_input)`: pops
`'__prompts__'`, reads the `"templates"` mapping (falling back to the legacy
`"template"` list, whose chosen label carries the path in a trailing
parenthesized group), validates that the chosen path is non-empty and
relative, and joins it onto the repository root.  Returns the path together
with the mutated context. -/
def choose_nested_template_core (p : Prompter) (envOf : Context → JinjaEnv)
    (context : Context) (repo_dir : String) (no_input : Bool) :
    Except PErr (String × Context) := do
  let cookiecutter_dict : Ctx := []
  let env := envOf context
  let pfx := ""
  let pc := popPrompts context
  let prompts := pc.1
  let context := pc.2
  let config := (ctxGet context.cookiecutter "templates").getD (.vdict [])
  let template ←
    if config.truthy then do
      let val ← prompt_choice_for_template p "templates" config no_input
      let entry ← pySubscript config val
      pySubscript entry (.vstr "path")
    else do
      let config := (ctxGet context.cookiecutter "template").getD (.vlist [])
      let val ← prompt_choice_for_config p cookiecutter_dict env "template" config
        no_input prompts pfx
      match val with
      | .vstr s =>
          match extractParen s with
          | some t => pure (Val.vstr t)
          | none => .error (.typeError "NoneType has no attribute group")
      | _ => .error (.typeError "expected string or bytes-like object")
  if !template.truthy then .error (.valueError "Illegal template path")
  else
    match template with
    | .vstr s =>
        if isAbsolutePath s then .error (.valueError "Illegal template path")
        else pure (joinPath repo_dir s, context)
    | _ => .error (.typeError "argument should be a str")

/-- `choose_nested_template`, returning just the selected path. -/
def choose_nested_template (p : Prompter) (envOf : Context → JinjaEnv)
    (context : Context) (repo_dir : String) (no_input : Bool) : Except PErr String :=
  (choose_nested_template_core p envOf context repo_dir no_input).map (·.1)

/-! ### Concrete collaborators used by the executable witnesses -/

/-- An oracle that always returns the offered default (the operator pressing
enter everywhere, and picking the first choice). -/
def oracleDefault : Prompter :=
  { ask := fun _ d => d
    askYesNo := fun _ _ => true
    choose := fun _ _ => 0
    askJson := fun _ _ => [] }

/-- An oracle that picks the second offered choice and types fixed text. -/
def oracleSecond : Prompter :=
  { ask := fun _ _ => .vstr "typed"
    askYesNo := fun _ _ => false
    choose := fun _ _ => 1
    askJson := fun _ _ => [(.vstr "j", .vint 9)] }

/-- A template engine that returns every template string unchanged. -/
def envIdentity : JinjaEnv := ⟨fun s _ => .ok s⟩

/-- `create_env_with_context` stand-in returning the identity engine. -/
def envOfIdentity : Context → JinjaEnv := fun _ => envIdentity

/-- A template engine that fails on every template, like a template referring
to an undefined variable. -/
def envFail : JinjaEnv := ⟨fun _ _ => .error "boom"⟩

/-- `create_env_with_context` stand-in returning the failing engine. -/
def envOfFail : Context → JinjaEnv := fun _ => envFail

/-! ### Generic helper lemmas -/

@[simp] theorem exceptOkBind {ε α β : Type} (a : α) (f : α → Except ε β) :
    (Except.ok a >>= f) = f a := rfl

@[simp] theorem exceptErrBind {ε α β : Type} (e : ε) (f : α → Except ε β) :
    ((Except.error e : Except ε α) >>= f) = Except.error e := rfl

@[simp] theorem exceptOkMap {ε α β : Type} (a : α) (f : α → β) :
    (Except.ok a : Except ε α).map f = Except.ok (f a) := rfl

@[simp] theorem exceptErrMap {ε α β : Type} (e : ε) (f : α → β) :
    ((Except.error e : Except ε α).map f : Except ε β) = Except.error e := rfl

@[simp] theorem exceptPureEq {ε α : Type} (a : α) :
    (pure a : Except ε α) = Except.ok a := rfl

/-- A double-underscore name also starts with a single underscore. -/
theorem strStartsWith_double {s : String} (h : strStartsWith s "__" = true) :
    strStartsWith s "_" = true := by
  simp only [strStartsWith, List.isPrefixOf_iff_prefix] at h ⊢
  exact List.IsPrefix.trans (by simp) h

/-! ### Claim theorems -/

/-- Claim C9: `render_variable` returns booleans and `None` unchanged,
renders a dict by recursing into both its keys and its values and a list by
recursing into its elements, and coerces every other value to a string that
is evaluated as a template against the single named binding `cookiecutter`
exposing the accumulated context. -/
theorem claim_C9_render_variable (env : JinjaEnv) (cd : Ctx) :
    (render_variable env .vnone cd = .ok .vnone) ∧
    (∀ b, render_variable env (.vbool b) cd = .ok (.vbool b)) ∧
    (∀ kvs, render_variable env (.vdict kvs) cd = (render_pairs env kvs cd).map Val.vdict) ∧
    (∀ k v rest k2 v2 rest2,
      render_variable env k cd = .ok k2 →
      render_variable env v cd = .ok v2 →
      render_pairs env rest cd = .ok rest2 →
      render_pairs env ((k, v) :: rest) cd = .ok ((k2, v2) :: rest2)) ∧
    (∀ xs, render_variable env (.vlist xs) cd = (render_list env xs cd).map Val.vlist) ∧
    (∀ x rest x2 rest2,
      render_variable env x cd = .ok x2 →
      render_list env rest cd = .ok rest2 →
      render_list env (x :: rest) cd = .ok (x2 :: rest2)) ∧
    (∀ s, render_variable env (.vstr s) cd =
      match env.render s [("cookiecutter", ctxVal cd)] with
      | .ok t => .ok (.vstr t)
      | .error e => .error (.undefined e)) ∧
    (∀ n, render_variable env (.vint n) cd =
      match env.render (toString n) [("cookiecutter", ctxVal cd)] with
      | .ok t => .ok (.vstr t)
      | .error e => .error (.undefined e)) := by
  refine ⟨?_, ?_, ?_, ?_, ?_, ?_, ?_, ?_⟩
  · simp [render_variable]
  · intro b; simp [render_variable]
  · intro kvs; simp [render_variable]
  · intro k v rest k2 v2 rest2 hk hv hr
    rw [render_pairs, hk, hv, hr]
  · intro xs; simp [render_variable]
  · intro x rest x2 rest2 hx hr
    rw [render_list, hx, hr]
  · intro s; simp [render_variable]
  · intro n; simp [render_variable]

/-- Witness for claim C9 at a concrete dict entry: the key and the value are
both rendered through the template engine. -/
theorem claim_C9_witness :
    render_pairs envIdentity [(.vstr "k", .vint 3)] [] =
      .ok [(.vstr "k", .vstr "3")] :=
  (claim_C9_render_variable envIdentity []).2.2.2.1 (.vstr "k") (.vint 3) []
    (.vstr "k") (.vstr "3") [] rfl rfl rfl

/-- Claim C4: a single-underscore (non double-underscore) key is copied to
the result verbatim — no rendering, no prompting, no progress increment, and
it is excluded from the visible-question count; a double-underscore key is
template-rendered against the accumulated context and stored without any
interactive prompt (and also does not count as a visible question). -/
theorem claim_C4_underscore_keys (p : Prompter) (env : JinjaEnv) (prompts : Val)
    (errCtx : Context) (size : Nat) (no_input : Bool) (cd : Ctx) (count : Nat)
    (key : String) (raw : Val) (rest : List (String × Val)) :
    (strStartsWith key "_" = true → strStartsWith key "__" = false →
      pass1_step p env prompts errCtx size no_input (cd, count) key raw =
        .ok (ctxSet cd key raw, count) ∧
      visiblePrompts ((key, raw) :: rest) = visiblePrompts rest) ∧
    (strStartsWith key "__" = true →
      pass1_step p env prompts errCtx size no_input (cd, count) key raw =
        (render_variable env raw cd).map (fun v => (ctxSet cd key v, count)) ∧
      visiblePrompts ((key, raw) :: rest) = visiblePrompts rest) := by
  constructor
  · intro h1 h2
    constructor
    · simp [pass1_step, h1, h2]
    · simp [visiblePrompts, List.filter_cons, h1]
  · intro h2
    have h1 : strStartsWith key "_" = true := strStartsWith_double h2
    constructor
    · rw [pass1_step]
      simp only [h1, h2, Bool.not_true, Bool.and_false, Bool.false_and, if_false, if_true,
        Bool.and_self]
      cases hr : render_variable env raw cd <;> simp
    · simp [visiblePrompts, List.filter_cons, h1]

/-- Witness for claim C4: a private `_priv` key is copied verbatim and a
derived `__der` key is rendered, neither counting as a visible question. -/
theorem claim_C4_witness :
    (pass1_step oracleDefault envIdentity (.vdict []) ⟨[], []⟩ 0 false ([], 0)
        "_priv" (.vdict [(.vstr "t", .vstr "u")]) =
      .ok ([("_priv", .vdict [(.vstr "t", .vstr "u")])], 0)) ∧
    (pass1_step oracleDefault envIdentity (.vdict []) ⟨[], []⟩ 0 false ([], 0)
        "__der" (.vstr "tpl") = .ok ([("__der", .vstr "tpl")], 0)) ∧
    visiblePrompts [("_priv", .vnone), ("__der", .vnone)] = [] := by
  refine ⟨?_, ?_, rfl⟩
  · exact ((claim_C4_underscore_keys oracleDefault envIdentity (.vdict []) ⟨[], []⟩ 0 false
      [] 0 "_priv" (.vdict [(.vstr "t", .vstr "u")]) []).1 rfl rfl).1
  · have h := ((claim_C4_underscore_keys oracleDefault envIdentity (.vdict []) ⟨[], []⟩ 0 false
      [] 0 "__der" (.vstr "tpl") []).2 rfl).1
    rw [h]; rfl

/-- A name that does not start with `_` does not start with `__` either. -/
theorem strStartsWith_not_single {s : String} (h : strStartsWith s "_" = false) :
    strStartsWith s "__" = false := by
  cases h2 : strStartsWith s "__" with
  | false => rfl
  | true => rw [strStartsWith_double h2] at h; exact absurd h (by simp)

/-- Claim C1: for a schema key whose raw value is a dict containing both
`choices` and `_`, the first pass resolves the choice first (under no-input
the first rendered option); then, interactively, when the nested `_` config
carries a truthy `__conditional__` the nested fields are resolved and merged
into `{"choice": value}` exactly when the chosen value equals the condition's
`value` and otherwise only `{"choice": value}` is stored; with no
`__conditional__` the nested fields are always resolved and merged; under
no-input only `{"choice": first rendered option}` is stored and the nested
config is never resolved. -/
theorem claim_C1_choice_with_nested (p : Prompter) (env : JinjaEnv) (prompts : Val)
    (errCtx : Context) (size : Nat) (cd : Ctx) (count : Nat) (key : String)
    (raw choices nested_cfg condition : Val)
    (h1 : strStartsWith key "_" = false)
    (hcwn : isChoiceWithNested raw = true)
    (hch : pySubscript raw (.vstr "choices") = .ok choices)
    (hcfg : pySubscript raw (.vstr "_") = .ok nested_cfg)
    (hcond : pyDictGetD nested_cfg (.vstr "__conditional__") .vnone = .ok condition) :
    (∀ pfxAny opts r rs, pyIterate choices = .ok opts →
      render_list env opts cd = .ok (r :: rs) →
      prompt_choice_for_config p cd env key choices true prompts pfxAny = .ok r) ∧
    (∀ c, prompt_choice_for_config p cd env key choices true prompts
        (progressPfx (count + 1) size) = .ok c →
      pass1_step p env prompts errCtx size true (cd, count) key raw =
        .ok (ctxSet cd key (.vdict [(.vstr "choice", c)]), count + 1)) ∧
    (condition.truthy = true →
      ∀ c ev nv, prompt_choice_for_config p cd env key choices false prompts
          (progressPfx (count + 1) size) = .ok c →
        pyDictGetD condition (.vstr "value") .vnone = .ok ev →
        (c == ev) = true →
        prompt_for_nested_config p (.vstr key) nested_cfg false "    " = .ok nv →
        pass1_step p env prompts errCtx size false (cd, count) key raw =
          .ok (ctxSet cd key (mergeChoice c nv), count + 1)) ∧
    (condition.truthy = true →
      ∀ c ev, prompt_choice_for_config p cd env key choices false prompts
          (progressPfx (count + 1) size) = .ok c →
        pyDictGetD condition (.vstr "value") .vnone = .ok ev →
        (c == ev) = false →
        pass1_step p env prompts errCtx size false (cd, count) key raw =
          .ok (ctxSet cd key (.vdict [(.vstr "choice", c)]), count + 1)) ∧
    (condition.truthy = false →
      ∀ c nv, prompt_choice_for_config p cd env key choices false prompts
          (progressPfx (count + 1) size) = .ok c →
        prompt_for_nested_config p (.vstr key) nested_cfg false "    " = .ok nv →
        pass1_step p env prompts errCtx size false (cd, count) key raw =
          .ok (ctxSet cd key (mergeChoice c nv), count + 1)) := by
  have h2 : strStartsWith key "__" = false := strStartsWith_not_single h1
  refine ⟨?_, ?_, ?_, ?_, ?_⟩
  · intro pfxAny opts r rs hio hrl
    rw [prompt_choice_for_config, hio]
    simp [hrl]
  · intro c hc
    rw [pass1_step]
    simp only [h1, h2, hcwn, Bool.false_and, if_false, if_true, hch, exceptOkBind, hc,
      hcfg, hcond, Bool.not_true, Bool.and_false]
    simp
  · intro hct c ev nv hc hev hq hnv
    rw [pass1_step]
    simp only [h1, h2, hcwn, Bool.false_and, if_false, if_true, hch, exceptOkBind, hc,
      hcfg, hcond, hct, hev, hq, hnv, Bool.not_false, Bool.and_self, Bool.true_and]
    simp [hq, hnv]
  · intro hct c ev hc hev hq
    rw [pass1_step]
    simp only [h1, h2, hcwn, Bool.false_and, if_false, if_true, hch, exceptOkBind, hc,
      hcfg, hcond, hct, hev, hq, Bool.not_false, Bool.and_self, Bool.true_and]
    simp [hq]
  · intro hct c nv hc hnv
    rw [pass1_step]
    simp only [h1, h2, hcwn, Bool.false_and, if_false, if_true, hch, exceptOkBind, hc,
      hcfg, hcond, hct, hnv, Bool.not_false, Bool.and_false, Bool.true_and, Bool.not_true,
      Bool.and_self]
    simp [hnv]

/-- The choice-with-nested sample of the spec: `choices={"a":…, "b":…}` and a
nested `_` schema `{"x": 1, "__conditional__": {"value": "a"}}`. -/
def sampleCWN : Val :=
  .vdict [(.vstr "choices", .vdict [(.vstr "a", .vdict []), (.vstr "b", .vdict [])]),
    (.vstr "_", .vdict [(.vstr "x", .vint 1),
      (.vstr "__conditional__", .vdict [(.vstr "value", .vstr "a")])])]

/-- The nested `_` schema of `sampleCWN`. -/
def sampleCWNCfg : Val :=
  .vdict [(.vstr "x", .vint 1),
    (.vstr "__conditional__", .vdict [(.vstr "value", .vstr "a")])]

/-- Witness for claim C1: on the spec's sample schema, choosing `"a"`
interactively yields `{"choice": "a", "x": 1}`, choosing `"b"` yields
`{"choice": "b"}`, and no-input yields `{"choice": "a"}` alone. -/
theorem claim_C1_witness :
    (pass1_step oracleDefault envIdentity (.vdict []) ⟨[], []⟩ 1 false ([], 0) "feat"
        sampleCWN =
      .ok ([("feat", .vdict [(.vstr "choice", .vstr "a"), (.vstr "x", .vint 1)])], 1)) ∧
    (pass1_step oracleSecond envIdentity (.vdict []) ⟨[], []⟩ 1 false ([], 0) "feat"
        sampleCWN =
      .ok ([("feat", .vdict [(.vstr "choice", .vstr "b")])], 1)) ∧
    (pass1_step oracleDefault envIdentity (.vdict []) ⟨[], []⟩ 1 true ([], 0) "feat"
        sampleCWN =
      .ok ([("feat", .vdict [(.vstr "choice", .vstr "a")])], 1)) := by
  have h := claim_C1_choice_with_nested oracleDefault envIdentity (.vdict []) ⟨[], []⟩ 1
    [] 0 "feat" sampleCWN (.vdict [(.vstr "a", .vdict []), (.vstr "b", .vdict [])])
    sampleCWNCfg (.vdict [(.vstr "value", .vstr "a")]) rfl rfl rfl rfl rfl
  have h2 := claim_C1_choice_with_nested oracleSecond envIdentity (.vdict []) ⟨[], []⟩ 1
    [] 0 "feat" sampleCWN (.vdict [(.vstr "a", .vdict []), (.vstr "b", .vdict [])])
    sampleCWNCfg (.vdict [(.vstr "value", .vstr "a")]) rfl rfl rfl rfl rfl
  refine ⟨?_, ?_, ?_⟩
  · exact h.2.2.1 rfl (.vstr "a") (.vstr "a") [(.vstr "x", .vint 1)] rfl rfl rfl rfl
  · exact h2.2.2.2.1 rfl (.vstr "b") (.vstr "a") rfl rfl rfl
  · exact h.2.1 (.vstr "a") rfl

@[simp] theorem wrapUndefined_ok {α : Type} (key : String) (errCtx : Context) (a : α) :
    wrapUndefined key errCtx (.ok a) = .ok a := rfl

@[simp] theorem wrapUndefined_undefined {α : Type} (key : String) (errCtx : Context)
    (e : String) :
    (wrapUndefined key errCtx (.error (.undefined e)) : Except PErr α) =
      .error (.undefinedVarInTemplate (msgFor key) e errCtx) := rfl

/-- Claim C3: in the second pass, a still-unresolved key holding a dict with
`__prompts__` is resolved through the nested-config resolver; when the dict
also carries `__conditional__` naming an already-resolved key, the nested
fields are fully resolved exactly when that key's resolved value equals the
condition's `value`, while on mismatch the stored value is the raw fields
with the two reserved markers stripped, neither rendered nor prompted; with
no `__conditional__` the nested fields are always resolved. -/
theorem claim_C3_pass2_nested_config (p : Prompter) (env : JinjaEnv) (prompts : Val)
    (errCtx : Context) (size : Nat) (no_input : Bool) (cd : Ctx) (count : Nat)
    (key : String) (kvs : List (Val × Val))
    (hk : ctxHas cd key = false)
    (h1 : strStartsWith key "_" = false)
    (hp : hasKeyV kvs (.vstr "__prompts__") = true) :
    (hasKeyV kvs (.vstr "__conditional__") = true →
      ∀ condition ck ev cur,
        dictGet kvs (.vstr "__conditional__") = some condition →
        pyDictGetD condition (.vstr "option") .vnone = .ok ck →
        pyDictGetD condition (.vstr "value") .vnone = .ok ev →
        lookupByVal cd ck = .ok cur →
        ((cur == ev) = true →
          ∀ nv, prompt_for_nested_config p (.vstr key) (.vdict kvs) no_input "" = .ok nv →
            pass2_step p env prompts errCtx size no_input (cd, count) key (.vdict kvs) =
              .ok (ctxSet cd key (.vdict nv), count)) ∧
        ((cur == ev) = false →
          pass2_step p env prompts errCtx size no_input (cd, count) key (.vdict kvs) =
            .ok (ctxSet cd key (.vdict (kvs.filter fun kv =>
              !(Val.beq kv.1 (.vstr "__prompts__") ||
                Val.beq kv.1 (.vstr "__conditional__")))), count))) ∧
    (hasKeyV kvs (.vstr "__conditional__") = false →
      ∀ nv, prompt_for_nested_config p (.vstr key) (.vdict kvs) no_input "" = .ok nv →
        pass2_step p env prompts errCtx size no_input (cd, count) key (.vdict kvs) =
          .ok (ctxSet cd key (.vdict nv), count)) := by
  constructor
  · intro hc condition ck ev cur hfind hck hev hcur
    constructor
    · intro hq nv hnv
      rw [pass2_step]
      simp only [hk, h1, Bool.false_and, if_false, hp, hc, if_true, hfind, Option.getD_some,
        hck, exceptOkBind, hev, hcur, hq, hnv]
      simp
    · intro hq
      rw [pass2_step]
      simp only [hk, h1, Bool.false_and, if_false, hp, hc, if_true, hfind, Option.getD_some,
        hck, exceptOkBind, hev, hcur, hq]
      simp
  · intro hc nv hnv
    rw [pass2_step]
    simp only [hk, h1, Bool.false_and, if_false, hp, hc, if_true, hnv, exceptOkBind,
      Bool.false_eq_true]
    simp [hnv]

/-- A nested config gated on the earlier `"sw"` key having resolved to
`True`: `{"f": 7, "__prompts__": {}, "__conditional__": {"option": "sw",
"value": True}}`. -/
def sampleNested : List (Val × Val) :=
  [(.vstr "f", .vint 7), (.vstr "__prompts__", .vdict []),
    (.vstr "__conditional__", .vdict [(.vstr "option", .vstr "sw"),
      (.vstr "value", .vbool true)])]

/-- Witness for claim C3: with `sw = True` the nested field is resolved
(no-input copies its default), with `sw = False` the raw fields are stored
with the two markers stripped. -/
theorem claim_C3_witness :
    (pass2_step oracleDefault envIdentity (.vdict []) ⟨[], []⟩ 2 true
        ([("sw", .vbool true)], 1) "n" (.vdict sampleNested) =
      .ok (ctxSet [("sw", .vbool true)] "n" (.vdict [(.vstr "f", .vint 7)]), 1)) ∧
    (pass2_step oracleDefault envIdentity (.vdict []) ⟨[], []⟩ 2 true
        ([("sw", .vbool false)], 1) "n" (.vdict sampleNested) =
      .ok (ctxSet [("sw", .vbool false)] "n" (.vdict [(.vstr "f", .vint 7)]), 1)) := by
  have hA := claim_C3_pass2_nested_config oracleDefault envIdentity (.vdict []) ⟨[], []⟩ 2
    true [("sw", .vbool true)] 1 "n" sampleNested rfl rfl rfl
  have hB := claim_C3_pass2_nested_config oracleDefault envIdentity (.vdict []) ⟨[], []⟩ 2
    true [("sw", .vbool false)] 1 "n" sampleNested rfl rfl rfl
  constructor
  · exact (hA.1 rfl (.vdict [(.vstr "option", .vstr "sw"), (.vstr "value", .vbool true)])
      (.vstr "sw") (.vbool true) (.vbool true) rfl rfl rfl rfl).1 rfl
      [(.vstr "f", .vint 7)] rfl
  · exact (hB.1 rfl (.vdict [(.vstr "option", .vstr "sw"), (.vstr "value", .vbool true)])
      (.vstr "sw") (.vbool true) (.vbool false) rfl rfl rfl rfl).2 rfl

/-- Claim C7: for a mapping-form `templates` schema under no-input,
`choose_nested_template` picks the first option in declaration order and
returns the repository root joined with that first option's `path` field —
never the path of any later option. -/
theorem claim_C7_template_selector (p : Prompter) (envOf : Context → JinjaEnv)
    (context : Context) (repo_dir : String) (s1 : String) (o1 : List (Val × Val))
    (restOpts : List (Val × Val)) (t : String) (pr : Val)
    (hcfg : ctxGet ((popPrompts context).2).cookiecutter "templates" =
      some (.vdict ((.vstr s1, .vdict o1) :: restOpts)))
    (hlabels : prompts_from_options (.vdict ((.vstr s1, .vdict o1) :: restOpts)) = .ok pr)
    (hpath : dictGet o1 (.vstr "path") = some (.vstr t))
    (ht : (t == "") = false)
    (habs : strStartsWith t "/" = false) :
    choose_nested_template p envOf context repo_dir true = .ok (joinPath repo_dir t) := by
  rw [choose_nested_template, choose_nested_template_core]
  simp only [hcfg, Option.getD_some]
  rw [prompt_choice_for_template]
  simp only [hlabels, exceptOkBind, exceptPureEq, List.map_cons]
  have hsub : pySubscript (.vdict ((.vstr s1, .vdict o1) :: restOpts)) (.vstr s1) =
      .ok (.vdict o1) := by
    simp [pySubscript, dictGet, List.find?, Val.beq]
  have hsub2 : pySubscript (.vdict o1) (.vstr "path") = .ok (.vstr t) := by
    simp [pySubscript, hpath]
  have hne : t ≠ "" := by simpa using ht
  simp [Val.truthy, hsub, hsub2, isAbsolutePath, habs, hne]

/-- The spec's template-selection sample: two template options with paths
`tpl1` and `tpl2`. -/
def sampleTemplates : Context :=
  ⟨[("templates", .vdict
      [(.vstr "default", .vdict [(.vstr "path", .vstr "tpl1")]),
       (.vstr "alt", .vdict [(.vstr "path", .vstr "tpl2")])])], []⟩

/-- Witness for claim C7: on the spec's sample, no-input selection returns
the path built from `tpl1`, not `tpl2`. -/
theorem claim_C7_witness :
    choose_nested_template oracleDefault envOfIdentity sampleTemplates "/repo" true =
      .ok "/repo/tpl1" :=
  claim_C7_template_selector oracleDefault envOfIdentity sampleTemplates "/repo"
    "default" [(.vstr "path", .vstr "tpl1")]
    [(.vstr "alt", .vdict [(.vstr "path", .vstr "tpl2")])] "tpl1"
    (.vdict [(.vstr "__prompt__", .vstr "Select a template"),
      (.vstr "default", .vstr "default"), (.vstr "alt", .vstr "alt")])
    rfl rfl rfl rfl rfl

/-- Counterexample to claim C8 as stated: rendering a double-underscore key
happens outside the `try` block of the first pass, so the undefined-variable
error surfaces raw, not wrapped into `UndefinedVariableInTemplate`. -/
theorem claim_C8_counterexample :
    prompt_for_config oracleDefault envOfFail ⟨[("__x", .vstr "t")], []⟩ true =
      .error (.undefined "boom") := rfl

/-- Claim C8 (amended): an undefined-template-variable error raised while
rendering inside the protected regions — the list/boolean/scalar handling of
the first pass and the plain-dict handling of the second pass — is wrapped
into an `UndefinedVariableInTemplate` error whose message names the offending
key and which carries the full context, and the error aborts the pass (each
pass stops at the first failing key); renders of double-underscore keys and
of the options of a choice-with-nested key happen outside the protected
regions and propagate unwrapped. -/
theorem claim_C8_undefined_wrapping (p : Prompter) (env : JinjaEnv) (prompts : Val)
    (errCtx : Context) (size : Nat) (no_input : Bool) (cd : Ctx) (count : Nat)
    (key : String) (e : String) :
    (∀ raw, strStartsWith key "_" = false → isDict raw = false → isList raw = false →
      isBool raw = false →
      render_variable env raw cd = .error (.undefined e) →
      pass1_step p env prompts errCtx size no_input (cd, count) key raw =
        .error (.undefinedVarInTemplate (msgFor key) e errCtx)) ∧
    (∀ xs, strStartsWith key "_" = false →
      render_list env xs cd = .error (.undefined e) →
      pass1_step p env prompts errCtx size no_input (cd, count) key (.vlist xs) =
        .error (.undefinedVarInTemplate (msgFor key) e errCtx)) ∧
    (∀ kvs, ctxHas cd key = false → strStartsWith key "_" = false →
      hasKeyV kvs (.vstr "__prompts__") = false →
      render_variable env (.vdict kvs) cd = .error (.undefined e) →
      pass2_step p env prompts errCtx size no_input (cd, count) key (.vdict kvs) =
        .error (.undefinedVarInTemplate (msgFor key) e errCtx)) ∧
    (∀ raw rest er, pass1_step p env prompts errCtx size no_input (cd, count) key raw =
        .error er →
      pass1 p env prompts errCtx size no_input ((key, raw) :: rest) (cd, count) =
        .error er) ∧
    (∀ raw rest er, pass2_step p env prompts errCtx size no_input (cd, count) key raw =
        .error er →
      pass2 p env prompts errCtx size no_input ((key, raw) :: rest) (cd, count) =
        .error er) := by
  refine ⟨?_, ?_, ?_, ?_, ?_⟩
  · intro raw h1 hnd hnl hnb hr
    have h2 : strStartsWith key "__" = false := strStartsWith_not_single h1
    have hcwn : isChoiceWithNested raw = false := by
      cases raw <;> simp_all [isChoiceWithNested, isDict]
    rw [pass1_step]
    simp only [h1, h2, hcwn, hnd, hnl, hnb, Bool.false_and, if_false, Bool.not_false,
      if_true, Bool.false_eq_true]
    simp [wrapUndefined, hr]
  · intro xs h1 hr
    have h2 : strStartsWith key "__" = false := strStartsWith_not_single h1
    rw [pass1_step]
    simp only [h1, h2, Bool.false_and, if_false, isChoiceWithNested, isDict, isList,
      Bool.not_false, if_true]
    rw [prompt_choice_for_config]
    simp [pyIterate, hr, wrapUndefined]
  · intro kvs hk h1 hnp hr
    rw [pass2_step]
    simp only [hk, h1, Bool.false_and, if_false, hnp, Bool.false_eq_true]
    simp [wrapUndefined, hr]
  · intro raw rest er her
    rw [pass1, her]; rfl
  · intro raw rest er her
    rw [pass2, her]; rfl

/-- Witness for claim C8 (amended): a visible scalar key whose template fails
to render produces the wrapped error naming the key and carrying the
context, and the pass aborts with it. -/
theorem claim_C8_witness :
    (pass1_step oracleDefault envFail (.vdict []) ⟨[], []⟩ 1 true ([], 0) "x" (.vstr "t") =
      .error (.undefinedVarInTemplate (msgFor "x") "boom" ⟨[], []⟩)) ∧
    (pass1 oracleDefault envFail (.vdict []) ⟨[], []⟩ 1 true
        [("x", .vstr "t"), ("y", .vstr "u")] ([], 0) =
      .error (.undefinedVarInTemplate (msgFor "x") "boom" ⟨[], []⟩)) := by
  have h := claim_C8_undefined_wrapping oracleDefault envFail (.vdict []) ⟨[], []⟩ 1 true
    [] 0 "x" "boom"
  have hstep := h.1 (.vstr "t") rfl rfl rfl rfl rfl
  exact ⟨hstep, h.2.2.2.1 (.vstr "t") [("y", .vstr "u")] _ hstep⟩

/-! ### Shape lemmas for the two passes -/

/-- Keys the first pass defers to the second pass: visible keys holding a
dict that is not the choice-with-nested structure. -/
def deferredToPass2 (kv : String × Val) : Bool :=
  !strStartsWith kv.1 "_" && isDict kv.2 && !isChoiceWithNested kv.2

/-- Keys that increment the progress counter in the first pass. -/
def p1counts (kv : String × Val) : Bool :=
  !strStartsWith kv.1 "_" && (!isDict kv.2 || isChoiceWithNested kv.2)

/-- Keys that increment the progress counter in the second pass. -/
def p2counts (kv : String × Val) : Bool :=
  deferredToPass2 kv && !isNestedConfigVal kv.2

/-- A value that satisfies `isChoiceWithNested` is a dict. -/
theorem isDict_of_isChoiceWithNested {raw : Val} (h : isChoiceWithNested raw = true) :
    isDict raw = true := by
  cases raw <;> simp_all [isChoiceWithNested, isDict]

/-- If `wrapUndefined` succeeds, the wrapped computation succeeded with the
same value. -/
theorem wrapUndefined_eq_ok {α : Type} {key : String} {c : Context}
    {r : Except PErr α} {a : α} (h : wrapUndefined key c r = .ok a) : r = .ok a := by
  cases r with
  | ok b => exact h
  | error e => cases e <;> simp [wrapUndefined] at h

/-- Every successful iteration of the first pass either leaves the state
unchanged (a deferred dict key) or writes exactly its own key, and it
increments the counter exactly when the key is a visible non-dict or
choice-with-nested key. -/
theorem pass1_step_shape (p : Prompter) (env : JinjaEnv) (prompts : Val)
    (errCtx : Context) (size : Nat) (no_input : Bool) (cd : Ctx) (count : Nat)
    (key : String) (raw : Val) (cd2 : Ctx) (count2 : Nat)
    (h : pass1_step p env prompts errCtx size no_input (cd, count) key raw =
      .ok (cd2, count2)) :
    (if deferredToPass2 (key, raw) then cd2 = cd else ∃ v, cd2 = ctxSet cd key v) ∧
    count2 = count + (if p1counts (key, raw) then 1 else 0) := by
  rw [pass1_step] at h
  cases h1 : strStartsWith key "_" with
  | true =>
    have hdef : deferredToPass2 (key, raw) = false := by simp [deferredToPass2, h1]
    have hcnt : p1counts (key, raw) = false := by simp [p1counts, h1]
    cases h2 : strStartsWith key "__" with
    | false =>
      simp only [h1, h2, Bool.not_false, Bool.and_true, if_true] at h
      simp only [Except.ok.injEq, Prod.mk.injEq] at h
      simp [hdef, hcnt, h.1.symm, h.2.symm]
    | true =>
      simp only [h1, h2, Bool.not_true, Bool.and_false, Bool.false_eq_true, if_false,
        if_true] at h
      cases hr : render_variable env raw cd with
      | error e => rw [hr] at h; exact absurd h (by simp)
      | ok v =>
        rw [hr] at h
        simp only [Except.ok.injEq, Prod.mk.injEq] at h
        refine ⟨?_, by simp [hcnt, h.2.symm]⟩
        simp only [hdef, if_false]
        exact ⟨_, h.1.symm⟩
  | false =>
    have h2 : strStartsWith key "__" = false := strStartsWith_not_single h1
    simp only [h1, h2, Bool.false_and, Bool.false_eq_true, if_false] at h
    cases hcwn : isChoiceWithNested raw with
    | true =>
      have hd : isDict raw = true := isDict_of_isChoiceWithNested hcwn
      have hdef : deferredToPass2 (key, raw) = false := by
        simp [deferredToPass2, hcwn]
      have hcnt : p1counts (key, raw) = true := by simp [p1counts, h1, hcwn]
      simp only [hcwn, if_true] at h
      cases hch : pySubscript raw (.vstr "choices") <;> rw [hch] at h <;> simp at h
      case ok choices =>
      cases hcv : prompt_choice_for_config p cd env key choices no_input prompts
          (progressPfx (count + 1) size) <;> rw [hcv] at h <;> simp at h
      case ok choice_val =>
      cases hcf : pySubscript raw (.vstr "_") <;> rw [hcf] at h <;> simp at h
      case ok nested_cfg =>
      cases hcd : pyDictGetD nested_cfg (.vstr "__conditional__") .vnone <;>
        rw [hcd] at h <;> simp at h
      case ok condition =>
      refine ⟨?_, ?_⟩ <;> simp only [hdef, hcnt, if_false, if_true]
      · split at h
        · cases hev : pyDictGetD condition (.vstr "value") .vnone <;>
            rw [hev] at h <;> simp at h
          case ok ev =>
          split at h
          · cases hnv : prompt_for_nested_config p (.vstr key) nested_cfg no_input
                "    " <;> rw [hnv] at h <;> simp at h
            exact ⟨_, h.1.symm⟩
          · simp only [Except.ok.injEq, Prod.mk.injEq] at h
            exact ⟨_, h.1.symm⟩
        · split at h
          · cases hnv : prompt_for_nested_config p (.vstr key) nested_cfg no_input
                "    " <;> rw [hnv] at h <;> simp at h
            exact ⟨_, h.1.symm⟩
          · simp only [Except.ok.injEq, Prod.mk.injEq] at h
            exact ⟨_, h.1.symm⟩
      · split at h
        · cases hev : pyDictGetD condition (.vstr "value") .vnone <;>
            rw [hev] at h <;> simp at h
          case ok ev =>
          split at h
          · cases hnv : prompt_for_nested_config p (.vstr key) nested_cfg no_input
                "    " <;> rw [hnv] at h <;> simp at h
            exact h.2.symm
          · simp only [Except.ok.injEq, Prod.mk.injEq] at h
            exact h.2.symm
        · split at h
          · cases hnv : prompt_for_nested_config p (.vstr key) nested_cfg no_input
                "    " <;> rw [hnv] at h <;> simp at h
            exact h.2.symm
          · simp only [Except.ok.injEq, Prod.mk.injEq] at h
            exact h.2.symm
    | false =>
      simp only [hcwn, Bool.false_eq_true, if_false] at h
      cases hd : isDict raw with
      | true =>
        have hdef : deferredToPass2 (key, raw) = true := by
          simp [deferredToPass2, h1, hd, hcwn]
        have hcnt : p1counts (key, raw) = false := by simp [p1counts, h1, hd, hcwn]
        simp only [hd, Bool.not_true, Bool.false_eq_true, if_false] at h
        simp only [Except.ok.injEq, Prod.mk.injEq] at h
        simp [hdef, hcnt, h.1.symm, h.2.symm]
      | false =>
        have hdef : deferredToPass2 (key, raw) = false := by
          simp [deferredToPass2, hd]
        have hcnt : p1counts (key, raw) = true := by simp [p1counts, h1, hd]
        simp only [hd, Bool.not_false, if_true] at h
        replace h := wrapUndefined_eq_ok h
        refine ⟨?_, ?_⟩ <;> simp only [hdef, hcnt, if_false, if_true]
        · split at h
          · cases hcv : prompt_choice_for_config p cd env key raw no_input prompts
                (progressPfx (count + 1) size) <;> rw [hcv] at h <;> simp at h
            exact ⟨_, h.1.symm⟩
          · split at h
            · split at h
              · cases hr : render_variable env raw cd <;> rw [hr] at h <;> simp at h
                exact ⟨_, h.1.symm⟩
              · cases hr : read_user_yes_no p key raw prompts
                    (progressPfx (count + 1) size) <;> rw [hr] at h <;> simp at h
                exact ⟨_, h.1.symm⟩
            · cases hr : render_variable env raw cd <;> rw [hr] at h <;> simp at h
              case ok val =>
              split at h
              · simp only [exceptPureEq, exceptOkBind, Except.ok.injEq,
                  Prod.mk.injEq] at h
                exact ⟨_, h.1.symm⟩
              · cases hv : read_user_variable p key val prompts
                    (progressPfx (count + 1) size) <;> rw [hv] at h <;> simp at h
                exact ⟨_, h.1.symm⟩
        · split at h
          · cases hcv : prompt_choice_for_config p cd env key raw no_input prompts
                (progressPfx (count + 1) size) <;> rw [hcv] at h <;> simp at h
            exact h.2.symm
          · split at h
            · split at h
              · cases hr : render_variable env raw cd <;> rw [hr] at h <;> simp at h
                exact h.2.symm
              · cases hr : read_user_yes_no p key raw prompts
                    (progressPfx (count + 1) size) <;> rw [hr] at h <;> simp at h
                exact h.2.symm
            · cases hr : render_variable env raw cd <;> rw [hr] at h <;> simp at h
              case ok val =>
              split at h
              · simp only [exceptPureEq, exceptOkBind, Except.ok.injEq,
                  Prod.mk.injEq] at h
                exact h.2.symm
              · cases hv : read_user_variable p key val prompts
                    (progressPfx (count + 1) size) <;> rw [hv] at h <;> simp at h
                exact h.2.symm

/-- Every successful iteration of the second pass skips keys already in the
context unchanged, and for an unresolved deferred key writes exactly that
key, incrementing the counter exactly when the dict carries no
`__prompts__`. -/
theorem pass2_step_shape (p : Prompter) (env : JinjaEnv) (prompts : Val)
    (errCtx : Context) (size : Nat) (no_input : Bool) (cd : Ctx) (count : Nat)
    (key : String) (raw : Val) (cd2 : Ctx) (count2 : Nat)
    (h : pass2_step p env prompts errCtx size no_input (cd, count) key raw =
      .ok (cd2, count2)) :
    (ctxHas cd key = true → cd2 = cd ∧ count2 = count) ∧
    (ctxHas cd key = false → deferredToPass2 (key, raw) = true →
      (∃ v, cd2 = ctxSet cd key v) ∧
      count2 = count + (if p2counts (key, raw) then 1 else 0)) := by
  simp only [pass2_step.eq_def] at h
  constructor
  · intro hk
    rw [hk] at h
    simp only [if_true] at h
    simp only [Except.ok.injEq, Prod.mk.injEq] at h
    exact ⟨h.1.symm, h.2.symm⟩
  · intro hk hdef
    have h1 : strStartsWith key "_" = false := by
      have := hdef
      simp only [deferredToPass2, Bool.and_eq_true, Bool.not_eq_true'] at this
      exact this.1.1
    have hd : isDict raw = true := by
      have := hdef
      simp only [deferredToPass2, Bool.and_eq_true] at this
      exact this.1.2
    obtain ⟨kvs, hraw⟩ : ∃ kvs, raw = .vdict kvs := by
      cases raw
      case vdict a => exact ⟨a, rfl⟩
      all_goals simp [isDict] at hd
    subst hraw
    have hcwn : isChoiceWithNested (.vdict kvs) = false := by
      have := hdef
      simp only [deferredToPass2, Bool.and_eq_true, Bool.not_eq_true'] at this
      exact this.2
    simp only [hk, h1, Bool.false_and, Bool.false_eq_true, if_false] at h
    replace h := wrapUndefined_eq_ok h
    cases hp : hasKeyV kvs (.vstr "__prompts__") with
    | true =>
      have hcnt : p2counts (key, .vdict kvs) = false := by
        simp [p2counts, isNestedConfigVal, hp]
      simp only [hp, if_true] at h
      cases hc : hasKeyV kvs (.vstr "__conditional__") with
      | true =>
        simp only [hc, if_true] at h
        cases hck : pyDictGetD ((dictGet kvs (.vstr "__conditional__")).getD .vnone)
            (.vstr "option") .vnone with
        | error e => rw [hck] at h; exact absurd h (by simp)
        | ok ck =>
        rw [hck] at h
        simp only [exceptOkBind] at h
        cases hev : pyDictGetD ((dictGet kvs (.vstr "__conditional__")).getD .vnone)
            (.vstr "value") .vnone with
        | error e => rw [hev] at h; exact absurd h (by simp)
        | ok ev =>
        rw [hev] at h
        simp only [exceptOkBind] at h
        cases hcur : lookupByVal cd ck with
        | error e => rw [hcur] at h; exact absurd h (by simp)
        | ok cur =>
        rw [hcur] at h
        simp only [exceptOkBind] at h
        split at h
        · cases hnv : prompt_for_nested_config p (.vstr key) (.vdict kvs) no_input
              "" with
          | error e => rw [hnv] at h; exact absurd h (by simp)
          | ok nv =>
            rw [hnv] at h
            simp only [exceptOkBind, exceptPureEq, Except.ok.injEq, Prod.mk.injEq] at h
            exact ⟨⟨_, h.1.symm⟩, by simp [hcnt, h.2.symm]⟩
        · simp only [exceptPureEq, Except.ok.injEq, Prod.mk.injEq] at h
          exact ⟨⟨_, h.1.symm⟩, by simp [hcnt, h.2.symm]⟩
      | false =>
        simp only [hc, Bool.false_eq_true, if_false] at h
        cases hnv : prompt_for_nested_config p (.vstr key) (.vdict kvs) no_input
            "" with
        | error e => rw [hnv] at h; exact absurd h (by simp)
        | ok nv =>
          rw [hnv] at h
          simp only [exceptOkBind, exceptPureEq, Except.ok.injEq, Prod.mk.injEq] at h
          exact ⟨⟨_, h.1.symm⟩, by simp [hcnt, h.2.symm]⟩
    | false =>
      have hcnt : p2counts (key, .vdict kvs) = true := by
        simp [p2counts, deferredToPass2, isNestedConfigVal, hp, h1, isDict, hcwn]
      simp only [hp, Bool.false_eq_true, if_false] at h
      cases hr : render_variable env (.vdict kvs) cd with
      | error e => rw [hr] at h; exact absurd h (by simp)
      | ok val =>
      rw [hr] at h
      simp only [exceptOkBind] at h
      split at h
      · cases hv : read_user_dict p key val prompts (progressPfx (count + 1) size) with
        | error e => rw [hv] at h; exact absurd h (by simp)
        | ok v =>
          rw [hv] at h
          simp only [exceptOkBind, exceptPureEq, Except.ok.injEq, Prod.mk.injEq] at h
          exact ⟨⟨_, h.1.symm⟩, by simp [hcnt, h.2.symm]⟩
      · simp only [exceptPureEq, exceptOkBind, Except.ok.injEq, Prod.mk.injEq] at h
        exact ⟨⟨_, h.1.symm⟩, by simp [hcnt, h.2.symm]⟩

/-- Writing an absent key appends it at the end, as in a Python dict. -/
theorem ctxSet_of_not_has {cd : Ctx} {k : String} (h : ctxHas cd k = false) (v : Val) :
    ctxSet cd k v = cd ++ [(k, v)] := by
  have h2 : (cd.any fun kv => kv.1 == k) = false := h
  simp [ctxSet, h2]

/-- Key membership after appending one entry. -/
theorem ctxHas_append_one {cd : Ctx} {k k2 : String} {v : Val} :
    ctxHas (cd ++ [(k, v)]) k2 = (ctxHas cd k2 || (k == k2)) := by
  simp [ctxHas, List.any_append]

/-- `ctxHas` is membership among the stored keys. -/
theorem ctxHas_iff_mem {cd : Ctx} {k : String} :
    ctxHas cd k = true ↔ k ∈ cd.map Prod.fst := by
  simp [ctxHas, List.any_eq_true, List.mem_map, beq_iff_eq]

/-- A deferred key does not increment the first-pass counter. -/
theorem p1counts_eq_false_of_deferred {kv : String × Val}
    (h : deferredToPass2 kv = true) : p1counts kv = false := by
  simp only [deferredToPass2, Bool.and_eq_true, Bool.not_eq_true'] at h
  simp [p1counts, h.1.2, h.2]

/-- The first pass, run from a context containing none of the (distinct)
schema keys, appends exactly the non-deferred keys in declaration order and
adds one progress increment per `p1counts` key. -/
theorem pass1_keys_count (p : Prompter) (env : JinjaEnv) (prompts : Val)
    (errCtx : Context) (size : Nat) (no_input : Bool) (schema : List (String × Val)) :
    ∀ (cd : Ctx) (count : Nat) (cd2 : Ctx) (count2 : Nat),
      pass1 p env prompts errCtx size no_input schema (cd, count) = .ok (cd2, count2) →
      (∀ kv ∈ schema, ctxHas cd kv.1 = false) →
      (schema.map Prod.fst).Nodup →
      cd2.map Prod.fst = cd.map Prod.fst ++
        ((schema.filter fun kv => !deferredToPass2 kv).map Prod.fst) ∧
      count2 = count + schema.countP p1counts := by
  induction schema with
  | nil =>
    intro cd count cd2 count2 h _ _
    rw [pass1] at h
    simp only [Except.ok.injEq, Prod.mk.injEq] at h
    simp [h.1, h.2]
  | cons hd rest ih =>
    obtain ⟨key, raw⟩ := hd
    intro cd count cd2 count2 h hfresh hnd
    rw [pass1] at h
    cases hstep : pass1_step p env prompts errCtx size no_input (cd, count) key raw with
    | error e => rw [hstep] at h; exact absurd h (by simp)
    | ok st2 =>
      obtain ⟨cd1, count1⟩ := st2
      rw [hstep] at h
      simp only [exceptOkBind] at h
      have shape := pass1_step_shape p env prompts errCtx size no_input cd count key raw
        cd1 count1 hstep
      have hndr : (rest.map Prod.fst).Nodup := by
        simpa using hnd.of_cons
      have hkey_not : key ∉ rest.map Prod.fst := by
        have := hnd
        simp only [List.map_cons, List.nodup_cons] at this
        exact this.1
      cases hdef : deferredToPass2 (key, raw) with
      | true =>
        rw [hdef] at shape
        simp only [if_true] at shape
        have hp1 : p1counts (key, raw) = false := p1counts_eq_false_of_deferred hdef
        rw [shape.1] at h
        have hrest := ih cd count1 cd2 count2 h
          (fun kv hm => hfresh kv (List.mem_cons_of_mem _ hm)) hndr
        refine ⟨?_, ?_⟩
        · rw [hrest.1]
          simp [List.filter_cons, hdef]
        · rw [hrest.2, shape.2]
          simp [List.countP_cons, hp1]
      | false =>
        rw [hdef] at shape
        simp only [Bool.false_eq_true, if_false] at shape
        obtain ⟨⟨v, hcd1⟩, hcnt1⟩ := shape
        have hkfresh : ctxHas cd key = false := hfresh (key, raw) (List.mem_cons_self _ _)
        rw [ctxSet_of_not_has hkfresh] at hcd1
        subst hcd1
        have hfresh1 : ∀ kv ∈ rest, ctxHas (cd ++ [(key, v)]) kv.1 = false := by
          intro kv hm
          rw [ctxHas_append_one]
          have h1 : ctxHas cd kv.1 = false := hfresh kv (List.mem_cons_of_mem _ hm)
          have h2 : (key == kv.1) = false := by
            have : key ≠ kv.1 := by
              intro he
              exact hkey_not (he ▸ List.mem_map_of_mem Prod.fst hm)
            simpa using this
          simp [h1, h2]
        have hrest := ih (cd ++ [(key, v)]) count1 cd2 count2 h hfresh1 hndr
        refine ⟨?_, ?_⟩
        · rw [hrest.1]
          simp [List.filter_cons, hdef, List.append_assoc]
        · rw [hrest.2, hcnt1]
          simp [List.countP_cons]
          omega

/-- The second pass, run from a context already containing every
non-deferred (distinct) schema key and none of the deferred ones, appends
exactly the deferred keys in declaration order and adds one progress
increment per `p2counts` key. -/
theorem pass2_keys_count (p : Prompter) (env : JinjaEnv) (prompts : Val)
    (errCtx : Context) (size : Nat) (no_input : Bool) (schema : List (String × Val)) :
    ∀ (cd : Ctx) (count : Nat) (cd2 : Ctx) (count2 : Nat),
      pass2 p env prompts errCtx size no_input schema (cd, count) = .ok (cd2, count2) →
      (∀ kv ∈ schema, deferredToPass2 kv = false → ctxHas cd kv.1 = true) →
      (∀ kv ∈ schema, deferredToPass2 kv = true → ctxHas cd kv.1 = false) →
      (schema.map Prod.fst).Nodup →
      cd2.map Prod.fst = cd.map Prod.fst ++
        ((schema.filter deferredToPass2).map Prod.fst) ∧
      count2 = count + schema.countP p2counts := by
  induction schema with
  | nil =>
    intro cd count cd2 count2 h _ _ _
    rw [pass2] at h
    simp only [Except.ok.injEq, Prod.mk.injEq] at h
    simp [h.1, h.2]
  | cons hd rest ih =>
    obtain ⟨key, raw⟩ := hd
    intro cd count cd2 count2 h hin hout hnd
    rw [pass2] at h
    cases hstep : pass2_step p env prompts errCtx size no_input (cd, count) key raw with
    | error e => rw [hstep] at h; exact absurd h (by simp)
    | ok st2 =>
      obtain ⟨cd1, count1⟩ := st2
      rw [hstep] at h
      simp only [exceptOkBind] at h
      have shape := pass2_step_shape p env prompts errCtx size no_input cd count key raw
        cd1 count1 hstep
      have hndr : (rest.map Prod.fst).Nodup := by
        simpa using hnd.of_cons
      have hkey_not : key ∉ rest.map Prod.fst := by
        have := hnd
        simp only [List.map_cons, List.nodup_cons] at this
        exact this.1
      cases hdef : deferredToPass2 (key, raw) with
      | false =>
        have hk : ctxHas cd key = true := hin (key, raw) (List.mem_cons_self _ _) hdef
        obtain ⟨hcd1, hcnt1⟩ := shape.1 hk
        have hp2 : p2counts (key, raw) = false := by
          simp [p2counts, hdef]
        rw [hcd1, hcnt1] at h
        have hrest := ih cd count cd2 count2 h
          (fun kv hm hd2 => hin kv (List.mem_cons_of_mem _ hm) hd2)
          (fun kv hm hd2 => hout kv (List.mem_cons_of_mem _ hm) hd2) hndr
        refine ⟨?_, ?_⟩
        · rw [hrest.1]
          simp [List.filter_cons, hdef]
        · rw [hrest.2]
          simp [List.countP_cons, hp2]
      | true =>
        have hk : ctxHas cd key = false := hout (key, raw) (List.mem_cons_self _ _) hdef
        obtain ⟨⟨v, hcd1⟩, hcnt1⟩ := shape.2 hk hdef
        rw [ctxSet_of_not_has hk] at hcd1
        subst hcd1
        have hmono : ∀ kv ∈ rest, deferredToPass2 kv = false →
            ctxHas (cd ++ [(key, v)]) kv.1 = true := by
          intro kv hm hd2
          rw [ctxHas_append_one]
          simp [hin kv (List.mem_cons_of_mem _ hm) hd2]
        have hfresh1 : ∀ kv ∈ rest, deferredToPass2 kv = true →
            ctxHas (cd ++ [(key, v)]) kv.1 = false := by
          intro kv hm hd2
          rw [ctxHas_append_one]
          have h1 : ctxHas cd kv.1 = false := hout kv (List.mem_cons_of_mem _ hm) hd2
          have h2 : (key == kv.1) = false := by
            have : key ≠ kv.1 := by
              intro he
              exact hkey_not (he ▸ List.mem_map_of_mem Prod.fst hm)
            simpa using this
          simp [h1, h2]
        have hrest := ih (cd ++ [(key, v)]) count1 cd2 count2 h hmono hfresh1 hndr
        refine ⟨?_, ?_⟩
        · rw [hrest.1]
          simp [List.filter_cons, hdef, List.append_assoc]
        · rw [hrest.2, hcnt1]
          simp [List.countP_cons, hdef]
          omega

/-- The schema after popping `'__prompts__'` is a sublist of the original. -/
theorem popPrompts_cookiecutter_sublist (c : Context) :
    (popPrompts c).2.cookiecutter.Sublist c.cookiecutter := by
  rw [popPrompts]
  cases ctxGet c.cookiecutter "__prompts__" with
  | none => exact List.Sublist.refl _
  | some v => exact List.eraseP_sublist _

/-- Inversion of a successful `prompt_for_config_core` run into its two
passes over the popped schema. -/
theorem prompt_for_config_core_inversion (p : Prompter) (envOf : Context → JinjaEnv)
    (context : Context) (no_input : Bool) (res : Ctx) (n : Nat) (ctx2 : Context)
    (h : prompt_for_config_core p envOf context no_input = .ok (res, n, ctx2)) :
    ctx2 = (popPrompts context).2 ∧
    ∃ cd1 c1,
      pass1 p (envOf context) (popPrompts context).1 (popPrompts context).2
        ((visiblePrompts (popPrompts context).2.cookiecutter).length) no_input
        (popPrompts context).2.cookiecutter ([], 0) = .ok (cd1, c1) ∧
      pass2 p (envOf context) (popPrompts context).1 (popPrompts context).2
        ((visiblePrompts (popPrompts context).2.cookiecutter).length) no_input
        (popPrompts context).2.cookiecutter (cd1, c1) = .ok (res, n) := by
  rw [prompt_for_config_core] at h
  cases h1 : pass1 p (envOf context) (popPrompts context).1 (popPrompts context).2
      ((visiblePrompts (popPrompts context).2.cookiecutter).length) no_input
      (popPrompts context).2.cookiecutter ([], 0) with
  | error e => rw [h1] at h; exact absurd h (by simp)
  | ok st1 =>
    obtain ⟨cd1, c1⟩ := st1
    rw [h1] at h
    simp only [exceptOkBind] at h
    cases h2 : pass2 p (envOf context) (popPrompts context).1 (popPrompts context).2
        ((visiblePrompts (popPrompts context).2.cookiecutter).length) no_input
        (popPrompts context).2.cookiecutter (cd1, c1) with
    | error e => rw [h2] at h; exact absurd h (by simp)
    | ok st2 =>
      obtain ⟨cdF, cF⟩ := st2
      rw [h2] at h
      simp only [exceptOkBind, exceptPureEq, Except.ok.injEq, Prod.mk.injEq] at h
      obtain ⟨hres, hn, hctx⟩ := h
      refine ⟨hctx.symm, cd1, c1, rfl, ?_⟩
      rw [h2, hres, hn]

/-- A successful `prompt_for_config_core` run produces the non-deferred keys
in order followed by the deferred keys in order, and its final counter is the
sum of the two passes' increments. -/
theorem core_keys_count (p : Prompter) (envOf : Context → JinjaEnv) (context : Context)
    (no_input : Bool) (res : Ctx) (n : Nat) (ctx2 : Context)
    (hnd : (context.cookiecutter.map Prod.fst).Nodup)
    (h : prompt_for_config_core p envOf context no_input = .ok (res, n, ctx2)) :
    ctx2 = (popPrompts context).2 ∧
    res.map Prod.fst =
      ((ctx2.cookiecutter.filter fun kv => !deferredToPass2 kv).map Prod.fst) ++
      ((ctx2.cookiecutter.filter deferredToPass2).map Prod.fst) ∧
    n = ctx2.cookiecutter.countP p1counts + ctx2.cookiecutter.countP p2counts := by
  obtain ⟨hctx, cd1, c1, h1, h2⟩ := prompt_for_config_core_inversion p envOf context
    no_input res n ctx2 h
  have hndS : (((popPrompts context).2.cookiecutter).map Prod.fst).Nodup :=
    ((popPrompts_cookiecutter_sublist context).map Prod.fst).nodup hnd
  have hempty : ∀ kv ∈ (popPrompts context).2.cookiecutter, ctxHas [] kv.1 = false := by
    intro kv _; rfl
  have hp1 := pass1_keys_count p (envOf context) (popPrompts context).1
    (popPrompts context).2 ((visiblePrompts (popPrompts context).2.cookiecutter).length)
    no_input (popPrompts context).2.cookiecutter [] 0 cd1 c1 h1 hempty hndS
  have hin : ∀ kv ∈ (popPrompts context).2.cookiecutter, deferredToPass2 kv = false →
      ctxHas cd1 kv.1 = true := by
    intro kv hm hd2
    rw [ctxHas_iff_mem, hp1.1]
    simp only [List.map_nil, List.nil_append]
    exact List.mem_map_of_mem Prod.fst (List.mem_filter_of_mem hm (by simp [hd2]))
  have hout : ∀ kv ∈ (popPrompts context).2.cookiecutter, deferredToPass2 kv = true →
      ctxHas cd1 kv.1 = false := by
    intro kv hm hd2
    cases hc : ctxHas cd1 kv.1 with
    | false => rfl
    | true =>
      rw [ctxHas_iff_mem, hp1.1] at hc
      simp only [List.map_nil, List.nil_append, List.mem_map] at hc
      obtain ⟨kv2, hm2, he⟩ := hc
      have hm2S := List.mem_of_mem_filter hm2
      have hkv2 : kv2 = kv :=
        List.inj_on_of_nodup_map hndS hm2S hm he
      subst hkv2
      have := (List.mem_filter.mp hm2).2
      rw [hd2] at this
      simp at this
  have hp2 := pass2_keys_count p (envOf context) (popPrompts context).1
    (popPrompts context).2 ((visiblePrompts (popPrompts context).2.cookiecutter).length)
    no_input (popPrompts context).2.cookiecutter cd1 c1 res n h2 hin hout hndS
  subst hctx
  refine ⟨rfl, ?_, ?_⟩
  · rw [hp2.1, hp1.1]
    simp
  · rw [hp2.2, hp1.2]
    omega

/-- A successful first-pass iteration on a key not yet in the context only
ever appends: the previous context survives verbatim as a prefix, so no
existing binding (key or value) is rewritten. -/
theorem pass1_step_appendOnly (p : Prompter) (env : JinjaEnv) (prompts : Val)
    (errCtx : Context) (size : Nat) (no_input : Bool) (cd : Ctx) (count : Nat)
    (key : String) (raw : Val) (cd2 : Ctx) (count2 : Nat)
    (hk : ctxHas cd key = false)
    (h : pass1_step p env prompts errCtx size no_input (cd, count) key raw =
      .ok (cd2, count2)) :
    cd <+: cd2 := by
  have shape := pass1_step_shape p env prompts errCtx size no_input cd count key raw
    cd2 count2 h
  cases hdef : deferredToPass2 (key, raw) with
  | true =>
    rw [hdef] at shape
    simp only [if_true] at shape
    rw [shape.1]
  | false =>
    rw [hdef] at shape
    simp only [Bool.false_eq_true, if_false] at shape
    obtain ⟨v, hv⟩ := shape.1
    rw [hv, ctxSet_of_not_has hk]
    exact List.prefix_append _ _

/-- Every successful second-pass iteration either leaves the context
untouched or writes a key that was absent (by appending); it never
overwrites an existing binding. -/
theorem pass2_step_write_shape (p : Prompter) (env : JinjaEnv) (prompts : Val)
    (errCtx : Context) (size : Nat) (no_input : Bool) (cd : Ctx) (count : Nat)
    (key : String) (raw : Val) (cd2 : Ctx) (count2 : Nat)
    (h : pass2_step p env prompts errCtx size no_input (cd, count) key raw =
      .ok (cd2, count2)) :
    cd2 = cd ∨ (ctxHas cd key = false ∧ ∃ v, cd2 = ctxSet cd key v) := by
  simp only [pass2_step.eq_def] at h
  cases hk : ctxHas cd key with
  | true =>
    rw [hk] at h
    simp only [if_true] at h
    simp only [Except.ok.injEq, Prod.mk.injEq] at h
    exact Or.inl h.1.symm
  | false =>
    simp only [hk, Bool.false_eq_true, if_false] at h
    cases hg : (strStartsWith key "_" && !strStartsWith key "__") with
    | true =>
      simp only [hg, if_true] at h
      simp only [Except.ok.injEq, Prod.mk.injEq] at h
      exact Or.inl h.1.symm
    | false =>
      simp only [hg, Bool.false_eq_true, if_false] at h
      replace h := wrapUndefined_eq_ok h
      cases raw with
      | vdict kvs =>
        cases hp : hasKeyV kvs (.vstr "__prompts__") with
        | true =>
          simp only [hp, if_true] at h
          cases hc : hasKeyV kvs (.vstr "__conditional__") with
          | true =>
            simp only [hc, if_true] at h
            cases hck : pyDictGetD ((dictGet kvs (.vstr "__conditional__")).getD .vnone)
                (.vstr "option") .vnone with
            | error e => rw [hck] at h; exact absurd h (by simp)
            | ok ck =>
            rw [hck] at h
            simp only [exceptOkBind] at h
            cases hev : pyDictGetD ((dictGet kvs (.vstr "__conditional__")).getD .vnone)
                (.vstr "value") .vnone with
            | error e => rw [hev] at h; exact absurd h (by simp)
            | ok ev =>
            rw [hev] at h
            simp only [exceptOkBind] at h
            cases hcur : lookupByVal cd ck with
            | error e => rw [hcur] at h; exact absurd h (by simp)
            | ok cur =>
            rw [hcur] at h
            simp only [exceptOkBind] at h
            split at h
            · cases hnv : prompt_for_nested_config p (.vstr key) (.vdict kvs) no_input
                  "" with
              | error e => rw [hnv] at h; exact absurd h (by simp)
              | ok nv =>
                rw [hnv] at h
                simp only [exceptOkBind, exceptPureEq, Except.ok.injEq,
                  Prod.mk.injEq] at h
                exact Or.inr ⟨rfl, _, h.1.symm⟩
            · simp only [exceptPureEq, Except.ok.injEq, Prod.mk.injEq] at h
              exact Or.inr ⟨rfl, _, h.1.symm⟩
          | false =>
            simp only [hc, Bool.false_eq_true, if_false] at h
            cases hnv : prompt_for_nested_config p (.vstr key) (.vdict kvs) no_input
                "" with
            | error e => rw [hnv] at h; exact absurd h (by simp)
            | ok nv =>
              rw [hnv] at h
              simp only [exceptOkBind, exceptPureEq, Except.ok.injEq,
                Prod.mk.injEq] at h
              exact Or.inr ⟨rfl, _, h.1.symm⟩
        | false =>
          simp only [hp, Bool.false_eq_true, if_false] at h
          cases hr : render_variable env (.vdict kvs) cd with
          | error e => rw [hr] at h; exact absurd h (by simp)
          | ok val =>
          rw [hr] at h
          simp only [exceptOkBind] at h
          split at h
          · cases hv : read_user_dict p key val prompts (progressPfx (count + 1) size) with
            | error e => rw [hv] at h; exact absurd h (by simp)
            | ok v =>
              rw [hv] at h
              simp only [exceptOkBind, exceptPureEq, Except.ok.injEq,
                Prod.mk.injEq] at h
              exact Or.inr ⟨rfl, _, h.1.symm⟩
          · simp only [exceptPureEq, exceptOkBind, Except.ok.injEq, Prod.mk.injEq] at h
            exact Or.inr ⟨rfl, _, h.1.symm⟩
      | vnone =>
        simp only [Except.ok.injEq, Prod.mk.injEq] at h
        exact Or.inl h.1.symm
      | vbool b =>
        simp only [Except.ok.injEq, Prod.mk.injEq] at h
        exact Or.inl h.1.symm
      | vint n2 =>
        simp only [Except.ok.injEq, Prod.mk.injEq] at h
        exact Or.inl h.1.symm
      | vstr s =>
        simp only [Except.ok.injEq, Prod.mk.injEq] at h
        exact Or.inl h.1.symm
      | vlist xs =>
        simp only [Except.ok.injEq, Prod.mk.injEq] at h
        exact Or.inl h.1.symm

/-- A successful second-pass iteration preserves the previous context as a
prefix: it never rewrites an already-written binding. -/
theorem pass2_step_appendOnly (p : Prompter) (env : JinjaEnv) (prompts : Val)
    (errCtx : Context) (size : Nat) (no_input : Bool) (cd : Ctx) (count : Nat)
    (key : String) (raw : Val) (cd2 : Ctx) (count2 : Nat)
    (h : pass2_step p env prompts errCtx size no_input (cd, count) key raw =
      .ok (cd2, count2)) :
    cd <+: cd2 := by
  rcases pass2_step_write_shape p env prompts errCtx size no_input cd count key raw
    cd2 count2 h with hcd | ⟨hk, v, hv⟩
  · rw [hcd]
  · rw [hv, ctxSet_of_not_has hk]
    exact List.prefix_append _ _

/-- Over the whole second pass the starting context survives verbatim as a
prefix of the final context. -/
theorem pass2_appendOnly (p : Prompter) (env : JinjaEnv) (prompts : Val)
    (errCtx : Context) (size : Nat) (no_input : Bool) (schema : List (String × Val)) :
    ∀ (st st2 : Ctx × Nat),
      pass2 p env prompts errCtx size no_input schema st = .ok st2 →
      st.1 <+: st2.1 := by
  induction schema with
  | nil =>
    intro st st2 h
    rw [pass2] at h
    simp only [Except.ok.injEq] at h
    rw [h]
  | cons hd rest ih =>
    obtain ⟨key, raw⟩ := hd
    intro st st2 h
    obtain ⟨cd, count⟩ := st
    rw [pass2] at h
    cases hstep : pass2_step p env prompts errCtx size no_input (cd, count) key raw with
    | error e => rw [hstep] at h; exact absurd h (by simp)
    | ok stm =>
      obtain ⟨cdm, cm⟩ := stm
      rw [hstep] at h
      simp only [exceptOkBind] at h
      exact List.IsPrefix.trans
        (pass2_step_appendOnly p env prompts errCtx size no_input cd count key raw cdm cm
          hstep)
        (ih (cdm, cm) st2 h)

/-- Claim C2: the resolved mapping contains its keys in exactly the (popped)
schema's declaration order, except that the dict-valued keys deferred to the
second pass all appear after the first-pass keys while preserving their own
relative order; and once a key has been written to the result it is never
rewritten by any later step of either pass — each iteration of the first
pass (on a not-yet-written key, as guaranteed along the run by the distinct
keys) and every iteration of the second pass preserves the previous context
verbatim as a list prefix, only ever appending a fresh binding, and in
particular the whole first-pass context survives unchanged as a prefix of
the final result; the result therefore binds each key once. -/
theorem claim_C2_key_order (p : Prompter) (envOf : Context → JinjaEnv)
    (context : Context) (no_input : Bool) (res : Ctx) (n : Nat) (ctx2 : Context)
    (hnd : (context.cookiecutter.map Prod.fst).Nodup)
    (h : prompt_for_config_core p envOf context no_input = .ok (res, n, ctx2)) :
    (res.map Prod.fst =
      ((ctx2.cookiecutter.filter fun kv => !deferredToPass2 kv).map Prod.fst) ++
      ((ctx2.cookiecutter.filter deferredToPass2).map Prod.fst) ∧
    (res.map Prod.fst).Nodup) ∧
    (∀ (cd : Ctx) (count : Nat) (cd2 : Ctx) (count2 : Nat) (key : String) (raw : Val),
      ctxHas cd key = false →
      pass1_step p (envOf context) (popPrompts context).1 (popPrompts context).2
        ((visiblePrompts (popPrompts context).2.cookiecutter).length) no_input
        (cd, count) key raw = .ok (cd2, count2) →
      cd <+: cd2) ∧
    (∀ (cd : Ctx) (count : Nat) (cd2 : Ctx) (count2 : Nat) (key : String) (raw : Val),
      pass2_step p (envOf context) (popPrompts context).1 (popPrompts context).2
        ((visiblePrompts (popPrompts context).2.cookiecutter).length) no_input
        (cd, count) key raw = .ok (cd2, count2) →
      cd <+: cd2) ∧
    (∃ cd1 c1,
      pass1 p (envOf context) (popPrompts context).1 (popPrompts context).2
        ((visiblePrompts (popPrompts context).2.cookiecutter).length) no_input
        (popPrompts context).2.cookiecutter ([], 0) = .ok (cd1, c1) ∧
      cd1 <+: res) := by
  obtain ⟨hctx, hkeys, -⟩ := core_keys_count p envOf context no_input res n ctx2 hnd h
  obtain ⟨-, cd1, c1, h1, h2⟩ := prompt_for_config_core_inversion p envOf context
    no_input res n ctx2 h
  refine ⟨⟨hkeys, ?_⟩, ?_, ?_, cd1, c1, h1, ?_⟩
  · have hndS : ((ctx2.cookiecutter).map Prod.fst).Nodup := by
      subst hctx
      exact ((popPrompts_cookiecutter_sublist context).map Prod.fst).nodup hnd
    have hperm : List.Perm
        ((ctx2.cookiecutter.filter fun kv => !deferredToPass2 kv) ++
          (ctx2.cookiecutter.filter deferredToPass2)) ctx2.cookiecutter := by
      have h0 := List.filter_append_perm (fun kv => !deferredToPass2 kv) ctx2.cookiecutter
      simp only [Bool.not_not] at h0
      exact h0
    rw [hkeys, ← List.map_append]
    exact (hperm.map Prod.fst).nodup_iff.mpr hndS
  · intro cd count cd2 count2 key raw hk hstep
    exact pass1_step_appendOnly p (envOf context) (popPrompts context).1 (popPrompts context).2
      ((visiblePrompts (popPrompts context).2.cookiecutter).length) no_input cd count
      key raw cd2 count2 hk hstep
  · intro cd count cd2 count2 key raw hstep
    exact pass2_step_appendOnly p (envOf context) (popPrompts context).1 (popPrompts context).2
      ((visiblePrompts (popPrompts context).2.cookiecutter).length) no_input cd count
      key raw cd2 count2 hstep
  · exact pass2_appendOnly p (envOf context) (popPrompts context).1 (popPrompts context).2
      ((visiblePrompts (popPrompts context).2.cookiecutter).length) no_input
      (popPrompts context).2.cookiecutter (cd1, c1) (res, n) h2

/-- A mixed sample schema: scalar, deferred dict, boolean, private dict,
second deferred dict. -/
def sampleMixed : Context :=
  ⟨[("a", .vstr "1"), ("d1", .vdict [(.vstr "k", .vint 1)]), ("b", .vbool true),
    ("_p", .vdict []), ("d2", .vdict [(.vstr "q", .vint 2)])], []⟩

/-- Witness for claim C2: on the mixed sample the resolved keys are the
first-pass keys in order followed by the deferred dict keys in order, with no
duplicates; and a concrete first-pass step on the fresh key `b` keeps the
earlier `a` binding untouched as a prefix (appending only). -/
theorem claim_C2_witness :
    ((["a", "b", "_p", "d1", "d2"] : List String) =
      ((sampleMixed.cookiecutter.filter fun kv => !deferredToPass2 kv).map Prod.fst) ++
      ((sampleMixed.cookiecutter.filter deferredToPass2).map Prod.fst) ∧
    (["a", "b", "_p", "d1", "d2"] : List String).Nodup) ∧
    ([("a", Val.vstr "1")] : Ctx) <+: [("a", Val.vstr "1"), ("b", Val.vbool true)] := by
  have h := claim_C2_key_order oracleDefault envOfIdentity sampleMixed true
    [("a", .vstr "1"), ("b", .vbool true), ("_p", .vdict []),
      ("d1", .vdict [(.vstr "k", .vstr "1")]), ("d2", .vdict [(.vstr "q", .vstr "2")])]
    4 sampleMixed (by simp [sampleMixed]) rfl
  refine ⟨h.1, ?_⟩
  exact h.2.1 [("a", .vstr "1")] 1 [("a", .vstr "1"), ("b", .vbool true)] 2
    "b" (.vbool true) rfl rfl

/-- Keys that increment the progress counter exactly once over the whole
run: visible keys that are not pass-2 nested configs (dicts carrying
`__prompts__` without being choice-with-nested). -/
def countsOnce (kv : String × Val) : Bool :=
  !strStartsWith kv.1 "_" &&
    !(isDict kv.2 && !isChoiceWithNested kv.2 && isNestedConfigVal kv.2)

/-- The two passes' increments sum pointwise to the `countsOnce` indicator. -/
theorem countsOnce_pointwise (kv : String × Val) :
    (if p1counts kv then 1 else 0) + (if p2counts kv then 1 else 0) =
      (if countsOnce kv then (1 : Nat) else 0) := by
  rcases Bool.eq_false_or_eq_true (strStartsWith kv.1 "_") with h1 | h1 <;>
    rcases Bool.eq_false_or_eq_true (isDict kv.2) with h2 | h2 <;>
    rcases Bool.eq_false_or_eq_true (isChoiceWithNested kv.2) with h3 | h3 <;>
    rcases Bool.eq_false_or_eq_true (isNestedConfigVal kv.2) with h4 | h4 <;>
    simp [p1counts, p2counts, countsOnce, deferredToPass2, h1, h2, h3, h4]

/-- Summed over a schema, the two passes' increments count the `countsOnce`
keys. -/
theorem countP_split (l : List (String × Val)) :
    l.countP p1counts + l.countP p2counts = l.countP countsOnce := by
  induction l with
  | nil => rfl
  | cons a l ih =>
    simp only [List.countP_cons]
    have := countsOnce_pointwise a
    omega

/-- Counterexample to claim C5 as stated: a visible key holding a nested
config (`__prompts__` dict) never increments the progress counter, so a
schema with one visible question finishes with the counter still at zero. -/
theorem claim_C5_counterexample :
    prompt_for_config_core oracleDefault envOfIdentity
        ⟨[("a", .vdict [(.vstr "__prompts__", .vdict [])])], []⟩ true =
      .ok ([("a", .vdict [])], 0,
        ⟨[("a", .vdict [(.vstr "__prompts__", .vdict [])])], []⟩) ∧
    (visiblePrompts [("a", .vdict [(.vstr "__prompts__", .vdict [])])]).length = 1 :=
  ⟨rfl, rfl⟩

/-- Claim C5 (amended): over a whole resolution run, every visible key
increments the `[N/M]` progress counter exactly once — regardless of how many
nested sub-prompts it triggers — except visible keys holding a pass-2 nested
config (a dict carrying `__prompts__` that is not choice-with-nested), which
never increment; hence the final counter equals the number of `countsOnce`
keys of the popped schema. -/
theorem claim_C5_progress_count (p : Prompter) (envOf : Context → JinjaEnv)
    (context : Context) (no_input : Bool) (res : Ctx) (n : Nat) (ctx2 : Context)
    (hnd : (context.cookiecutter.map Prod.fst).Nodup)
    (h : prompt_for_config_core p envOf context no_input = .ok (res, n, ctx2)) :
    n = ctx2.cookiecutter.countP countsOnce := by
  obtain ⟨-, -, hcnt⟩ := core_keys_count p envOf context no_input res n ctx2 hnd h
  rw [hcnt, countP_split]

/-- Witness for claim C5 (amended): on the mixed sample schema the final
count is 4, one per visible non-nested-config key. -/
theorem claim_C5_witness :
    (4 : Nat) = sampleMixed.cookiecutter.countP countsOnce :=
  claim_C5_progress_count oracleDefault envOfIdentity sampleMixed true
    [("a", .vstr "1"), ("b", .vbool true), ("_p", .vdict []),
      ("d1", .vdict [(.vstr "k", .vstr "1")]), ("d2", .vdict [(.vstr "q", .vstr "2")])]
    4 sampleMixed (by simp [sampleMixed]) rfl

mutual

/-- Under no-input the nested-config resolver never consults the prompt
oracle. -/
theorem prompt_for_nested_config_oracle_indep (p q : Prompter) (pk cfg : Val)
    (pfx : String) :
    prompt_for_nested_config p pk cfg true pfx =
      prompt_for_nested_config q pk cfg true pfx := by
  cases cfg with
  | vdict kvs =>
    rw [prompt_for_nested_config, prompt_for_nested_config]
    exact nestedFields_oracle_indep p q
      ((dictGet kvs (.vstr "__prompts__")).getD (.vdict [])) (pfx ++ "    ") kvs
  | vnone => rfl
  | vbool b => rfl
  | vint n => rfl
  | vstr s => rfl
  | vlist xs => rfl

/-- Under no-input the nested-field loop never consults the prompt oracle. -/
theorem nestedFields_oracle_indep (p q : Prompter) (pn : Val) (npfx : String)
    (l : List (Val × Val)) :
    nestedFields p true pn npfx l = nestedFields q true pn npfx l := by
  match l with
  | [] => rfl
  | (key, value) :: rest =>
    rw [nestedFields, nestedFields]
    cases hm : (Val.beq key (.vstr "__prompts__") || Val.beq key (.vstr "__conditional__")) with
    | true =>
      simp only [hm, if_true]
      exact nestedFields_oracle_indep p q pn npfx rest
    | false =>
      simp only [hm, Bool.false_eq_true, if_false]
      cases hpt : pyDictGetD pn key
          (.vstr s!"{npfx}[bold magenta]{pyStr key}[/] (default: {pyStr value}): ") with
      | error e => rfl
      | ok prompt_text =>
        cases hn : isNestedConfigVal value with
        | true =>
          simp only [hn, if_true]
          rw [prompt_for_nested_config_oracle_indep p q key value npfx,
            nestedFields_oracle_indep p q pn npfx rest]
        | false =>
          simp only [hn, Bool.false_eq_true, if_false, if_true]
          rw [nestedFields_oracle_indep p q pn npfx rest]

end

/-- Under no-input the choice resolver returns the first rendered option and
never consults the prompt oracle. -/
theorem prompt_choice_for_config_oracle_indep (p q : Prompter) (cd : Ctx)
    (env : JinjaEnv) (key : String) (options : Val) (prompts : Val) (pfx : String) :
    prompt_choice_for_config p cd env key options true prompts pfx =
      prompt_choice_for_config q cd env key options true prompts pfx := by
  rw [prompt_choice_for_config, prompt_choice_for_config]
  cases pyIterate options with
  | error e => rfl
  | ok opts =>
    simp only [exceptOkBind]
    cases render_list env opts cd with
    | error e => rfl
    | ok rendered => simp

/-- Under no-input a first-pass iteration never consults the prompt oracle. -/
theorem pass1_step_oracle_indep (p q : Prompter) (env : JinjaEnv) (prompts : Val)
    (errCtx : Context) (size : Nat) (st : Ctx × Nat) (key : String) (raw : Val) :
    pass1_step p env prompts errCtx size true st key raw =
      pass1_step q env prompts errCtx size true st key raw := by
  obtain ⟨cd, count⟩ := st
  rw [pass1_step, pass1_step]
  cases h1 : (strStartsWith key "_" && !strStartsWith key "__") with
  | true => simp [h1]
  | false =>
    simp only [h1, Bool.false_eq_true, if_false]
    cases h2 : strStartsWith key "__" with
    | true => simp [h2]
    | false =>
      simp only [h2, Bool.false_eq_true, if_false]
      cases hcwn : isChoiceWithNested raw with
      | true =>
        simp only [hcwn, if_true, Bool.not_true, Bool.false_and, Bool.false_eq_true,
          if_false]
        cases hch : pySubscript raw (.vstr "choices") with
        | error e => rfl
        | ok choices =>
          simp only [exceptOkBind]
          rw [prompt_choice_for_config_oracle_indep p q cd env key choices prompts
            (progressPfx (count + 1) size)]
      | false =>
        simp only [hcwn, Bool.false_eq_true, if_false]
        cases hd : isDict raw with
        | true => simp [hd]
        | false =>
          simp only [hd, Bool.not_false, if_true]
          cases hl : isList raw with
          | true =>
            simp only [hl, if_true]
            rw [prompt_choice_for_config_oracle_indep p q cd env key raw prompts
              (progressPfx (count + 1) size)]
          | false =>
            cases hb : isBool raw with
            | true => simp [hl, hb]
            | false => simp [hl, hb]

/-- Under no-input a second-pass iteration never consults the prompt
oracle. -/
theorem pass2_step_oracle_indep (p q : Prompter) (env : JinjaEnv) (prompts : Val)
    (errCtx : Context) (size : Nat) (st : Ctx × Nat) (key : String) (raw : Val) :
    pass2_step p env prompts errCtx size true st key raw =
      pass2_step q env prompts errCtx size true st key raw := by
  obtain ⟨cd, count⟩ := st
  rw [pass2_step.eq_def, pass2_step.eq_def]
  cases hk : ctxHas cd key with
  | true => simp [hk]
  | false =>
    simp only [hk, Bool.false_eq_true, if_false]
    cases h1 : (strStartsWith key "_" && !strStartsWith key "__") with
    | true => simp [h1]
    | false =>
      simp only [h1, Bool.false_eq_true, if_false]
      cases raw with
      | vdict kvs =>
        simp only
        cases hp : hasKeyV kvs (.vstr "__prompts__") with
        | true =>
          simp only [hp, if_true]
          cases hc : hasKeyV kvs (.vstr "__conditional__") with
          | true =>
            simp only [hc, if_true]
            cases pyDictGetD ((dictGet kvs (.vstr "__conditional__")).getD .vnone)
                (.vstr "option") .vnone with
            | error e => rfl
            | ok ck =>
              simp only [exceptOkBind]
              cases pyDictGetD ((dictGet kvs (.vstr "__conditional__")).getD .vnone)
                  (.vstr "value") .vnone with
              | error e => rfl
              | ok ev =>
                simp only [exceptOkBind]
                cases lookupByVal cd ck with
                | error e => rfl
                | ok cur =>
                  simp only [exceptOkBind]
                  rw [prompt_for_nested_config_oracle_indep p q (.vstr key)
                    (.vdict kvs) ""]
          | false =>
            simp only [hc, Bool.false_eq_true, if_false]
            rw [prompt_for_nested_config_oracle_indep p q (.vstr key) (.vdict kvs) ""]
        | false =>
          simp only [hp, Bool.false_eq_true, if_false]
          cases render_variable env (.vdict kvs) cd with
          | error e => rfl
          | ok val => simp
      | vnone => rfl
      | vbool b => rfl
      | vint n => rfl
      | vstr s => rfl
      | vlist xs => rfl

/-- Under no-input the whole first pass is oracle-independent. -/
theorem pass1_oracle_indep (p q : Prompter) (env : JinjaEnv) (prompts : Val)
    (errCtx : Context) (size : Nat) (schema : List (String × Val)) :
    ∀ st, pass1 p env prompts errCtx size true schema st =
      pass1 q env prompts errCtx size true schema st := by
  induction schema with
  | nil => intro st; rfl
  | cons hd rest ih =>
    obtain ⟨key, raw⟩ := hd
    intro st
    obtain ⟨cd, count⟩ := st
    rw [pass1, pass1, pass1_step_oracle_indep p q env prompts errCtx size (cd, count)
      key raw]
    cases pass1_step q env prompts errCtx size true (cd, count) key raw with
    | error e => rfl
    | ok st2 => simp only [exceptOkBind]; exact ih st2

/-- Under no-input the whole second pass is oracle-independent. -/
theorem pass2_oracle_indep (p q : Prompter) (env : JinjaEnv) (prompts : Val)
    (errCtx : Context) (size : Nat) (schema : List (String × Val)) :
    ∀ st, pass2 p env prompts errCtx size true schema st =
      pass2 q env prompts errCtx size true schema st := by
  induction schema with
  | nil => intro st; rfl
  | cons hd rest ih =>
    obtain ⟨key, raw⟩ := hd
    intro st
    obtain ⟨cd, count⟩ := st
    rw [pass2, pass2, pass2_step_oracle_indep p q env prompts errCtx size (cd, count)
      key raw]
    cases pass2_step q env prompts errCtx size true (cd, count) key raw with
    | error e => rfl
    | ok st2 => simp only [exceptOkBind]; exact ih st2

/-- Claim C6: resolving the same schema under no-input mode is deterministic
— two runs of `prompt_for_config` with `no_input = true` on identical input
contexts yield identical result contexts, whatever the interactive oracles
would have answered. -/
theorem claim_C6_no_input_deterministic (p q : Prompter) (envOf : Context → JinjaEnv)
    (context : Context) :
    prompt_for_config p envOf context true = prompt_for_config q envOf context true := by
  rw [prompt_for_config, prompt_for_config, prompt_for_config_core,
    prompt_for_config_core]
  rw [pass1_oracle_indep p q (envOf context) (popPrompts context).1 (popPrompts context).2
    ((visiblePrompts (popPrompts context).2.cookiecutter).length)
    (popPrompts context).2.cookiecutter ([], 0)]
  cases pass1 q (envOf context) (popPrompts context).1 (popPrompts context).2
      ((visiblePrompts (popPrompts context).2.cookiecutter).length) true
      (popPrompts context).2.cookiecutter ([], 0) with
  | error e => rfl
  | ok st1 =>
    simp only [exceptOkBind]
    rw [pass2_oracle_indep p q (envOf context) (popPrompts context).1
      (popPrompts context).2 ((visiblePrompts (popPrompts context).2.cookiecutter).length)
      (popPrompts context).2.cookiecutter st1]

/-- Inversion of a successful `Except` bind. -/
theorem exceptBind_ok_inversion {ε α β : Type} {x : Except ε α} {f : α → Except ε β}
    {b : β} (h : (x >>= f) = .ok b) : ∃ a, x = .ok a ∧ f a = .ok b := by
  cases x with
  | error e => simp at h
  | ok a => exact ⟨a, rfl, h⟩

/-- Popping `'__prompts__'` erases exactly that entry of the schema and
leaves every other part of the context unchanged. -/
theorem popPrompts_eq (c : Context) :
    (popPrompts c).2 =
      ⟨c.cookiecutter.eraseP fun kv => kv.1 == "__prompts__", c.extra⟩ := by
  rw [popPrompts]
  cases hf : ctxGet c.cookiecutter "__prompts__" with
  | some v => rfl
  | none =>
    have hfind : c.cookiecutter.find? (fun kv => kv.1 == "__prompts__") = none := by
      rw [ctxGet] at hf
      cases hq : c.cookiecutter.find? fun kv => kv.1 == "__prompts__" with
      | none => rfl
      | some kv => rw [hq] at hf; simp at hf
    have hnone : ∀ kv ∈ c.cookiecutter, ¬((kv.1 == "__prompts__") = true) :=
      fun kv hm => by
        have := List.find?_eq_none.mp hfind kv hm
        simpa using this
    have he : c.cookiecutter.eraseP (fun kv => kv.1 == "__prompts__") =
        c.cookiecutter := by
      rw [List.eraseP_of_forall_not]
      intro kv hm
      simpa using hnone kv hm
    rw [he]

/-- After erasing the `'__prompts__'` entry from a schema with distinct
keys, no `'__prompts__'` key remains. -/
theorem keys_eraseP_prompts {l : List (String × Val)}
    (h : (l.map Prod.fst).Nodup) :
    "__prompts__" ∉ (l.eraseP fun kv => kv.1 == "__prompts__").map Prod.fst := by
  induction l with
  | nil => simp
  | cons a l ih =>
    simp only [List.map_cons, List.nodup_cons] at h
    rw [List.eraseP_cons]
    cases ha : (a.1 == "__prompts__") with
    | true =>
      simp only [ha, cond_true]
      have he : a.1 = "__prompts__" := by simpa using ha
      rw [← he]
      exact h.1
    | false =>
      simp only [ha, cond_false, List.map_cons, List.mem_cons]
      rintro (he | he)
      · rw [he] at ha; simp at ha
      · exact ih h.2 he

/-- If the path-validation tail of `choose_nested_template` succeeds, the
context it returns is the popped context it was given. -/
theorem validateTail_ctx {repo : String} {pc : Context} {t : Val} {s0 : String}
    {ctx2 : Context}
    (h : (if (!t.truthy) = true then
          (Except.error (PErr.valueError "Illegal template path") :
            Except PErr (String × Context))
        else
          match t with
          | Val.vstr s =>
              if isAbsolutePath s = true then
                Except.error (PErr.valueError "Illegal template path")
              else pure (joinPath repo s, pc)
          | _ => Except.error (PErr.typeError "argument should be a str")) =
        .ok (s0, ctx2)) :
    ctx2 = pc := by
  split at h
  · simp at h
  · cases t with
    | vstr ts =>
      have hc : (if isAbsolutePath ts = true then
            (Except.error (PErr.valueError "Illegal template path") :
              Except PErr (String × Context))
          else pure (joinPath repo ts, pc)) = Except.ok (s0, ctx2) := h
      split at hc
      · simp at hc
      · simp only [exceptPureEq, Except.ok.injEq, Prod.mk.injEq] at hc
        exact hc.2.symm
    | vnone => simp at h
    | vbool b => simp at h
    | vint n2 => simp at h
    | vlist xs => simp at h
    | vdict kvs => simp at h

/-- If the legacy parenthesized-path extraction and validation succeed, the
returned context is the popped context. -/
theorem legacyParen_ctx {repo : String} {pc : Context} {vs : String} {s0 : String}
    {ctx2 : Context}
    (h : (match extractParen vs with
        | some t =>
            if (!(Val.vstr t).truthy) = true then
              (Except.error (PErr.valueError "Illegal template path") :
                Except PErr (String × Context))
            else
              if isAbsolutePath t = true then
                Except.error (PErr.valueError "Illegal template path")
              else pure (joinPath repo t, pc)
        | none => Except.error (PErr.typeError "NoneType has no attribute group")) =
        .ok (s0, ctx2)) :
    ctx2 = pc := by
  cases hep : extractParen vs with
  | none => rw [hep] at h; simp at h
  | some t =>
    rw [hep] at h
    have hc : (if (!(Val.vstr t).truthy) = true then
          (Except.error (PErr.valueError "Illegal template path") :
            Except PErr (String × Context))
        else
          if isAbsolutePath t = true then
            Except.error (PErr.valueError "Illegal template path")
          else pure (joinPath repo t, pc)) = Except.ok (s0, ctx2) := h
    split at hc
    · simp at hc
    · split at hc
      · simp at hc
      · simp only [exceptPureEq, Except.ok.injEq, Prod.mk.injEq] at hc
        exact hc.2.symm

/-- Claim C10: `prompt_for_config` (and likewise `choose_nested_template`)
mutates its input by popping the `'__prompts__'` entry out of the schema
under `context['cookiecutter']`: after the call the schema no longer has a
`'__prompts__'` key while every other entry (and every other top-level part
of the context) is unchanged, and the returned mapping itself has no
`'__prompts__'` key. -/
theorem claim_C10_prompts_pop (p : Prompter) (envOf : Context → JinjaEnv)
    (context : Context) (no_input : Bool) :
    ((popPrompts context).2 =
      ⟨context.cookiecutter.eraseP fun kv => kv.1 == "__prompts__", context.extra⟩) ∧
    (∀ res n ctx2, (context.cookiecutter.map Prod.fst).Nodup →
      prompt_for_config_core p envOf context no_input = .ok (res, n, ctx2) →
      ctx2 = (popPrompts context).2 ∧ "__prompts__" ∉ res.map Prod.fst) ∧
    (∀ repo s ctx2,
      choose_nested_template_core p envOf context repo no_input = .ok (s, ctx2) →
      ctx2 = (popPrompts context).2) := by
  refine ⟨popPrompts_eq context, ?_, ?_⟩
  · intro res n ctx2 hnd h
    obtain ⟨hctx, hkeys, -⟩ := core_keys_count p envOf context no_input res n ctx2 hnd h
    refine ⟨hctx, ?_⟩
    have hnotin : "__prompts__" ∉ ctx2.cookiecutter.map Prod.fst := by
      rw [hctx, popPrompts_eq context]
      exact keys_eraseP_prompts hnd
    rw [hkeys]
    intro hmem
    rcases List.mem_append.mp hmem with hm | hm
    · obtain ⟨kv, hkv, he⟩ := List.mem_map.mp hm
      exact hnotin (he ▸ List.mem_map_of_mem Prod.fst (List.mem_of_mem_filter hkv))
    · obtain ⟨kv, hkv, he⟩ := List.mem_map.mp hm
      exact hnotin (he ▸ List.mem_map_of_mem Prod.fst (List.mem_of_mem_filter hkv))
  · intro repo s0 ctx2 h
    rw [choose_nested_template_core] at h
    split at h
    · obtain ⟨val, -, h1⟩ := exceptBind_ok_inversion h
      obtain ⟨entry, -, h2⟩ := exceptBind_ok_inversion h1
      obtain ⟨t, -, hk⟩ := exceptBind_ok_inversion h2
      exact validateTail_ctx hk
    · obtain ⟨val, -, h1⟩ := exceptBind_ok_inversion h
      cases val with
      | vstr vs => exact legacyParen_ctx h1
      | vnone => simp at h1
      | vbool b => simp at h1
      | vint n2 => simp at h1
      | vlist xs => simp at h1
      | vdict kvs => simp at h1

/-- The sample context for the pop witness: a `'__prompts__'` entry, one
real key, and an unrelated top-level entry. -/
def samplePop : Context :=
  ⟨[("__prompts__", .vdict [(.vstr "a", .vstr "Q")]), ("a", .vstr "x")],
    [("other", .vint 5)]⟩

/-- Witness for claim C10: popping removes exactly `'__prompts__'`, the
mutated context is returned with `extra` untouched, and the resolved mapping
has no `'__prompts__'` key. -/
theorem claim_C10_witness :
    (popPrompts samplePop).2 = ⟨[("a", .vstr "x")], [("other", .vint 5)]⟩ ∧
    "__prompts__" ∉ ([("a", Val.vstr "x")] : Ctx).map Prod.fst := by
  have h := claim_C10_prompts_pop oracleDefault envOfIdentity samplePop true
  have h2 := h.2.1 [("a", .vstr "x")] 1 ⟨[("a", .vstr "x")], [("other", .vint 5)]⟩
    (by simp [samplePop]) rfl
  exact ⟨h.1, h2.2⟩

end CCPrompt
